import Mathlib

/-!
# Verification of the read-frog translation dispatch core

Shallow embedding of the translation dispatch core of the read-frog browser
extension: the generic batch queue (`src/utils/request/batch-queue.ts`), the
background dispatcher (`src/entrypoints/background/translation-queues.ts`),
the GenAI batch error classification and fallback, and the GenAI chat driver
and SSE stream decoder (`src/utils/genai/chat-pool.ts`).

Conventions of the embedding:
* JavaScript promises settle through stored resolver callbacks; here a task is
  identified by a numeric `id` and settlement is recorded as an explicit list
  of `(id, outcome)` pairs.
* The shared mutable `cancelled` flag on task objects is modelled as a set
  (list) of cancelled task ids threaded through the state, so that a flag set
  by `cancelTasks` is visible to an in-flight batch at resolution time.
* JS string truthiness (`if (hash)`, `if (result)`) is `s ≠ ""`.
* Machine numbers that stay small (counts, character totals, budgets) are
  `Nat`, matching the non-negative integers the source manipulates.
-/

set_option autoImplicit false

namespace ReadFrog

/-- A JavaScript `Error` value: `name` plus `message`. -/
structure Err where
  name : String
  message : String
deriving Repr, DecidableEq

/-- `createAbortError` (batch-queue.ts): a `DOMException`/`Error` whose `name`
is `"AbortError"`. -/
def createAbortError (message : String) : Err :=
  { name := "AbortError", message := message }

namespace BatchQueue

/-- A task handed to `BatchQueue.enqueue`: the caller data plus a resolver
identity. The source's `cancelled` flag lives in the queue state's
`cancelledIds` (see module header). -/
structure BatchTask (T : Type) where
  id : Nat
  data : T
deriving Repr, DecidableEq

/-- A pending batch (`PendingBatch<T, R>` in batch-queue.ts). The random
`id` string is irrelevant to the claims and omitted. -/
structure PendingBatch (T : Type) where
  tasks : List (BatchTask T)
  totalCharacters : Nat
  createdAt : Nat
  maxCharactersBudget : Nat
deriving Repr, DecidableEq

/-- Static configuration of the queue (the fields of `BatchOptions` the
claims depend on; the executors are passed explicitly at the call sites). -/
structure BatchConfig (T : Type) where
  maxCharactersPerBatch : Nat
  maxItemsPerBatch : Nat
  maxRetries : Nat
  enableFallbackToIndividual : Bool
  getCharacters : T → Nat
  getMaxCharactersForTask : T → Option Nat

/-- `task.cancelled` readout: the id has been recorded by `cancelTask`. -/
def isCancelled (cancelledIds : List Nat) {T : Type} (t : BatchTask T) : Bool :=
  cancelledIds.contains t.id

/-- `tasks.filter(task => !task.cancelled)` at the head of
`executeBatchWithRetry`. -/
def activeTasks {T : Type} (cancelledIds : List Nat) (tasks : List (BatchTask T)) :
    List (BatchTask T) :=
  tasks.filter (fun t => !isCancelled cancelledIds t)

/-- The error thrown on a result-count mismatch, message as in the source:
`Batch result count mismatch: expected N, got M.\nResults: [...]`. -/
def mismatchErr (expected : Nat) (results : List String) : Err :=
  { name := "Error"
    message :=
      "Batch result count mismatch: expected " ++ toString expected
        ++ ", got " ++ toString results.length ++ ".\nResults: [\""
        ++ String.intercalate "\",\n\"" results ++ "\"]" }

/-- `activeTasks.forEach((task, index) => { if (!task.cancelled)
task.resolve(results[index]) })`: positional delivery, skipping tasks whose
cancelled flag is set at resolution time. -/
def resolveDeliveries {T : Type} (cancelledIds : List Nat)
    (active : List (BatchTask T)) (results : List String) : List (Nat × String) :=
  (active.zip results).filterMap fun p =>
    if isCancelled cancelledIds p.1 then none else some (p.1.id, p.2)

/-- Outcome of one batch attempt: the body of the `try` block of
`executeBatchWithRetry` (batch-queue.ts lines 210-231). -/
inductive AttemptResult where
  | failed (e : Err)
  | resolved (deliveries : List (Nat × String))
deriving Repr, DecidableEq

/-- One attempt of `executeBatchWithRetry`: filter the active tasks, run the
batch executor on their data, fail hard on a result-count mismatch, else
resolve positionally. `exec` abstracts `this.executeBatch`; the queue's only
instantiation in the repository has `R = string`. -/
def runBatchAttempt {T : Type} (cancelledIds : List Nat)
    (exec : List T → Except Err (List String)) (tasks : List (BatchTask T)) :
    AttemptResult :=
  let active := activeTasks cancelledIds tasks
  if active.isEmpty then .resolved []
  else
    match exec (active.map (·.data)) with
    | .error e => .failed e
    | .ok results =>
      if results.length ≠ active.length then
        .failed (mismatchErr active.length results)
      else
        .resolved (resolveDeliveries cancelledIds active results)

/-- How a single task's promise settles. -/
inductive TaskOutcome where
  | resolvedWith (r : String)
  | rejectedWith (e : Err)
deriving Repr, DecidableEq

/-- `executeFallbackIndividual`: every task of the batch (cancelled ones
skipped) is retried as an independent individual request; `execInd`
abstracts `this.executeIndividual`. Each task settles from its own call
alone. -/
def executeFallbackIndividual {T : Type} (cancelledIds : List Nat)
    (execInd : T → Except Err String) (tasks : List (BatchTask T)) :
    List (Nat × TaskOutcome) :=
  tasks.filterMap fun t =>
    if isCancelled cancelledIds t then none
    else
      some (t.id, match execInd t.data with
        | .ok r => .resolvedWith r
        | .error e => .rejectedWith e)

/-- The catch-branch terminal rejection: `activeTasks.forEach(task => { if
(!task.cancelled) task.reject(err) })`. -/
def rejectActive {T : Type} (cancelledIds : List Nat)
    (tasks : List (BatchTask T)) (e : Err) : List (Nat × TaskOutcome) :=
  (activeTasks cancelledIds tasks).filterMap fun t =>
    if isCancelled cancelledIds t then none else some (t.id, .rejectedWith e)

/-- The retry loop of `executeBatchWithRetry`, with `exec k` the behaviour of
the batch executor on the attempt with `retryCount = k`. `fuel` bounds the
recursion; the wrapper supplies `maxRetries`, which the invariant
`fuel + retryCount = maxRetries` shows is never exhausted. -/
def runRetryLoop {T : Type} (cfg : BatchConfig T) (cancelledIds : List Nat)
    (exec : Nat → List T → Except Err (List String))
    (execInd : Option (T → Except Err String)) (tasks : List (BatchTask T)) :
    Nat → Nat → List (Nat × TaskOutcome)
  | fuel, retryCount =>
    match runBatchAttempt cancelledIds (exec retryCount) tasks with
    | .resolved ds => ds.map fun p => (p.1, .resolvedWith p.2)
    | .failed e =>
      if retryCount < cfg.maxRetries then
        match fuel with
        | 0 => []
        | fuel' + 1 => runRetryLoop cfg cancelledIds exec execInd tasks fuel' (retryCount + 1)
      else
        match cfg.enableFallbackToIndividual, execInd with
        | true, some f => executeFallbackIndividual cancelledIds f tasks
        | _, _ => rejectActive cancelledIds tasks e

/-- `executeBatchWithRetry(tasks, batchKey, 0)` as invoked by
`flushPendingBatchByKey`: the full settlement of the batch's tasks. -/
def executeBatchWithRetry {T : Type} (cfg : BatchConfig T) (cancelledIds : List Nat)
    (exec : Nat → List T → Except Err (List String))
    (execInd : Option (T → Except Err String)) (tasks : List (BatchTask T)) :
    List (Nat × TaskOutcome) :=
  runRetryLoop cfg cancelledIds exec execInd tasks cfg.maxRetries 0

/-- `true` iff the attempt threw. -/
def AttemptResult.isFailed : AttemptResult → Bool
  | .failed _ => true
  | .resolved _ => false

end BatchQueue

namespace BatchQueue

theorem mem_activeTasks_not_cancelled {T : Type} (c : List Nat)
    (tasks : List (BatchTask T)) {t : BatchTask T}
    (ht : t ∈ activeTasks c tasks) : isCancelled c t = false := by
  have := List.of_mem_filter ht
  simpa using this

theorem resolveDeliveries_eq_zip {T : Type} (c : List Nat)
    (active : List (BatchTask T)) (results : List String)
    (hnc : ∀ t ∈ active, isCancelled c t = false) :
    resolveDeliveries c active results = (active.map (·.id)).zip results := by
  induction active generalizing results with
  | nil => simp [resolveDeliveries]
  | cons t ts ih =>
    cases results with
    | nil => simp [resolveDeliveries]
    | cons r rs =>
      have hct : isCancelled c t = false := hnc t (by simp)
      have hts : ∀ u ∈ ts, isCancelled c u = false := fun u hu => hnc u (by
        simp [hu])
      have := ih rs hts
      simp [resolveDeliveries, hct] at this ⊢
      exact this

end BatchQueue

open BatchQueue in
/-- C1. In the batch queue, if the batch executor returns a result list whose
length differs from the number of active (non-cancelled) tasks, the attempt
fails with the count-mismatch error and delivers no result to any task; when
the lengths match, the i-th active task is resolved with the i-th result
(deliveries are exactly the positional zip of active task ids with
results). -/
theorem batch_attempt_positional_alignment {T : Type} (c : List Nat)
    (exec : List T → Except Err (List String)) (tasks : List (BatchTask T))
    (results : List String)
    (hact : activeTasks c tasks ≠ [])
    (hok : exec ((activeTasks c tasks).map (·.data)) = .ok results) :
    (results.length ≠ (activeTasks c tasks).length →
      runBatchAttempt c exec tasks =
        .failed (mismatchErr (activeTasks c tasks).length results)) ∧
    (results.length = (activeTasks c tasks).length →
      runBatchAttempt c exec tasks =
        .resolved (((activeTasks c tasks).map (·.id)).zip results)) := by
  have hne : (activeTasks c tasks).isEmpty = false := by
    cases h : activeTasks c tasks with
    | nil => exact absurd h hact
    | cons a l => simp [List.isEmpty]
  constructor
  · intro hmm
    simp [runBatchAttempt, hne, hok, hmm]
  · intro heq
    have hzip := resolveDeliveries_eq_zip c (activeTasks c tasks) results
      (fun t ht => mem_activeTasks_not_cancelled c tasks ht)
    simp [runBatchAttempt, hne, hok, heq, hzip]

/-- Witness for C1 at a concrete input: one active task, executor returning
two fragments fails the attempt; a matching executor resolves positionally. -/
theorem batch_attempt_positional_alignment_witness :
    BatchQueue.runBatchAttempt (T := Nat) [] (fun _ => .ok ["x", "y"]) [⟨0, 5⟩] =
      .failed (BatchQueue.mismatchErr 1 ["x", "y"]) := by
  have h := batch_attempt_positional_alignment (T := Nat) []
    (fun _ => .ok ["x", "y"]) [⟨0, 5⟩] ["x", "y"] (by decide) (by rfl)
  exact h.1 (by decide)

namespace BatchQueue

theorem runRetryLoop_all_failed_fallback {T : Type} (cfg : BatchConfig T)
    (c : List Nat) (exec : Nat → List T → Except Err (List String))
    (f : T → Except Err String) (tasks : List (BatchTask T))
    (hfb : cfg.enableFallbackToIndividual = true) :
    ∀ fuel retryCount, fuel + retryCount = cfg.maxRetries →
      (∀ k, retryCount ≤ k → k ≤ cfg.maxRetries →
        (runBatchAttempt c (exec k) tasks).isFailed = true) →
      runRetryLoop cfg c exec (some f) tasks fuel retryCount =
        executeFallbackIndividual c f tasks := by
  intro fuel
  induction fuel with
  | zero =>
    intro retryCount hsum hfail
    have hr : retryCount = cfg.maxRetries := by omega
    have hk := hfail retryCount (Nat.le_refl _) (by omega)
    rw [runRetryLoop]
    cases hatt : runBatchAttempt c (exec retryCount) tasks with
    | resolved ds => rw [hatt] at hk; simp [AttemptResult.isFailed] at hk
    | failed e =>
      have hlt : ¬ retryCount < cfg.maxRetries := by omega
      simp [hlt, hfb]
  | succ fuel ih =>
    intro retryCount hsum hfail
    have hk := hfail retryCount (Nat.le_refl _) (by omega)
    rw [runRetryLoop]
    cases hatt : runBatchAttempt c (exec retryCount) tasks with
    | resolved ds => rw [hatt] at hk; simp [AttemptResult.isFailed] at hk
    | failed e =>
      have hlt : retryCount < cfg.maxRetries := by omega
      simp only [hlt, if_pos]
      exact ih (retryCount + 1) (by omega)
        (fun k hk1 hk2 => hfail k (by omega) hk2)

end BatchQueue

open BatchQueue in
/-- C6. When every attempt (the initial try plus `maxRetries` retries) of a
batch fails and fallback is enabled with an individual executor, every
non-cancelled task of the batch settles from its own independent individual
request: the settlement list is exactly the per-task map of the individual
executor over the batch's non-cancelled tasks (no re-entry into the batch
executor), so a task whose individual call fails is the only task rejected
by that failure. -/
theorem batch_fallback_individual_independence {T : Type} (cfg : BatchConfig T)
    (c : List Nat) (exec : Nat → List T → Except Err (List String))
    (f : T → Except Err String) (tasks : List (BatchTask T))
    (hfail : ∀ k, k ≤ cfg.maxRetries →
      (runBatchAttempt c (exec k) tasks).isFailed = true)
    (hfb : cfg.enableFallbackToIndividual = true) :
    executeBatchWithRetry cfg c exec (some f) tasks =
      tasks.filterMap (fun t =>
        if isCancelled c t then none
        else some (t.id, match f t.data with
          | .ok r => TaskOutcome.resolvedWith r
          | .error e => TaskOutcome.rejectedWith e)) ∧
    ∀ t ∈ tasks, isCancelled c t = false →
      (t.id, match f t.data with
        | .ok r => TaskOutcome.resolvedWith r
        | .error e => TaskOutcome.rejectedWith e) ∈
        executeBatchWithRetry cfg c exec (some f) tasks := by
  have hmain : executeBatchWithRetry cfg c exec (some f) tasks =
      executeFallbackIndividual c f tasks :=
    runRetryLoop_all_failed_fallback cfg c exec f tasks hfb cfg.maxRetries 0
      (by omega) (fun k _ hk2 => hfail k hk2)
  constructor
  · rw [hmain]; rfl
  · intro t ht hnc
    rw [hmain]
    unfold executeFallbackIndividual
    exact List.mem_filterMap.mpr ⟨t, ht, by simp [hnc]⟩

open BatchQueue in
/-- Witness C6: two tasks, all three attempts of a `maxRetries = 2`
queue fail, the individual executor succeeds on one task and fails on the
other; only the failing task is rejected. -/
theorem batch_fallback_individual_independence_witness :
    executeBatchWithRetry (T := Nat)
      { maxCharactersPerBatch := 100, maxItemsPerBatch := 10, maxRetries := 2,
        enableFallbackToIndividual := true, getCharacters := fun n => n,
        getMaxCharactersForTask := fun _ => none }
      [] (fun _ _ => .error { name := "Error", message := "boom" })
      (some (fun d => if d = 1 then .ok "one" else .error { name := "Error", message := "ind" }))
      [⟨0, 1⟩, ⟨1, 2⟩] =
      [(0, .resolvedWith "one"), (1, .rejectedWith { name := "Error", message := "ind" })] := by
  have h := batch_fallback_individual_independence (T := Nat)
    { maxCharactersPerBatch := 100, maxItemsPerBatch := 10, maxRetries := 2,
      enableFallbackToIndividual := true, getCharacters := fun n => n,
      getMaxCharactersForTask := fun _ => none }
    [] (fun _ _ => .error { name := "Error", message := "boom" })
    (fun d => if d = 1 then .ok "one" else .error { name := "Error", message := "ind" })
    [⟨0, 1⟩, ⟨1, 2⟩]
    (fun k _ => by simp [runBatchAttempt, activeTasks, isCancelled, AttemptResult.isFailed])
    rfl
  rw [h.1]
  rfl

namespace BatchQueue

/-- The key-indexed pending-batch map (`Map<string, PendingBatch>`) as an
association list; `mapGet` is `map.get(key)`. -/
def mapGet {T : Type} : List (String × PendingBatch T) → String → Option (PendingBatch T)
  | [], _ => none
  | p :: rest, k => if p.1 = k then some p.2 else mapGet rest k

/-- `map.set(key, batch)`: replace the entry at an existing key in place,
else insert the new entry. -/
def mapSet {T : Type} : List (String × PendingBatch T) → String → PendingBatch T →
    List (String × PendingBatch T)
  | [], k, b => [(k, b)]
  | p :: rest, k, b => if p.1 = k then (k, b) :: rest else p :: mapSet rest k b

/-- `Math.max(characters, taskBudget ?? this.maxCharactersPerBatch)` in
`addTaskToBatch`: the budget recorded on a freshly created pending batch. -/
def resolvedBudget (characters : Nat) (taskBudget : Option Nat)
    (globalLimit : Nat) : Nat :=
  max characters (taskBudget.getD globalLimit)

/-- `createNewPendingBatch` (random batch id elided, `Date.now()` passed as
`now`). -/
def createNewPendingBatch {T : Type} (cfg : BatchConfig T) (now : Nat)
    (task : BatchTask T) (maxCharactersBudget : Nat) : PendingBatch T :=
  { tasks := [task]
    totalCharacters := cfg.getCharacters task.data
    createdAt := now
    maxCharactersBudget := maxCharactersBudget }

/-- What `addTaskToBatch` did to the map. On the overflow path the existing
batch is flushed (handed to execution) before the new batch replaces it. -/
inductive AddAction (T : Type) where
  | appended
  | flushedThenNew (flushedTasks : List (BatchTask T))
  | createdNew
deriving Repr, DecidableEq

/-- `addTaskToBatch` (batch-queue.ts lines 157-177). -/
def addTaskToBatch {T : Type} (cfg : BatchConfig T) (now : Nat)
    (m : List (String × PendingBatch T)) (batchKey : String)
    (task : BatchTask T) : List (String × PendingBatch T) × AddAction T :=
  let characters := cfg.getCharacters task.data
  let taskBudget := cfg.getMaxCharactersForTask task.data
  let resolved := resolvedBudget characters taskBudget cfg.maxCharactersPerBatch
  match mapGet m batchKey with
  | some existingBatch =>
    if existingBatch.totalCharacters + characters ≤ existingBatch.maxCharactersBudget then
      (mapSet m batchKey
        { existingBatch with
          tasks := existingBatch.tasks ++ [task]
          totalCharacters := existingBatch.totalCharacters + characters },
        .appended)
    else
      (mapSet m batchKey (createNewPendingBatch cfg now task resolved),
        .flushedThenNew existingBatch.tasks)
  | none =>
    (mapSet m batchKey (createNewPendingBatch cfg now task resolved), .createdNew)

/-- A concrete instantiation used in counterexamples: the task data is its
own character count, with a fixed per-task budget of 5 characters and a
global limit of 100. -/
def cexConfig : BatchConfig Nat :=
  { maxCharactersPerBatch := 100
    maxItemsPerBatch := 10
    maxRetries := 3
    enableFallbackToIndividual := true
    getCharacters := fun n => n
    getMaxCharactersForTask := fun _ => some 5 }

theorem mapGet_mapSet_self {T : Type} (m : List (String × PendingBatch T))
    (k : String) (b : PendingBatch T) : mapGet (mapSet m k b) k = some b := by
  induction m with
  | nil => simp [mapGet, mapSet]
  | cons p rest ih =>
    by_cases hp : p.1 = k
    · simp [mapGet, mapSet, hp]
    · simp [mapGet, mapSet, hp, ih]

end BatchQueue

open BatchQueue in
/-- Counterexample C9. With a global limit of 100 characters, enqueuing a
1-character task carrying a per-task budget of 5 into an empty queue creates
a pending batch whose budget is 5, not `max(5, 100) = 100`: the claimed
effective budget `max(per-task budget, batch budget, global limit)` does not
hold, because the code ignores the global limit whenever a per-task budget
is supplied. -/
theorem batch_budget_claim_counterexample :
    (mapGet (addTaskToBatch cexConfig 0 [] "k" ⟨0, 1⟩).1 "k").map
        (·.maxCharactersBudget) = some 5 ∧
      ¬ (5 : Nat) = max 5 100 := by
  constructor
  · rfl
  · decide

open BatchQueue in
/-- C9 (amended). The budget of a pending batch is fixed at creation to
`max(task characters, per-task budget when supplied, otherwise the global
limit)`: a task appended to an existing batch (it fits the batch's budget)
never changes that budget, and a task that does not fit flushes the batch
and opens a new one carrying the resolved budget of the incoming task. -/
theorem batch_budget_resolution {T : Type} (cfg : BatchConfig T) (now : Nat)
    (m : List (String × PendingBatch T)) (batchKey : String)
    (task : BatchTask T) :
    (mapGet m batchKey = none →
      (mapGet (addTaskToBatch cfg now m batchKey task).1 batchKey).map
          (·.maxCharactersBudget) =
        some (resolvedBudget (cfg.getCharacters task.data)
          (cfg.getMaxCharactersForTask task.data) cfg.maxCharactersPerBatch)) ∧
    (∀ b, mapGet m batchKey = some b →
      b.totalCharacters + cfg.getCharacters task.data ≤ b.maxCharactersBudget →
      (mapGet (addTaskToBatch cfg now m batchKey task).1 batchKey).map
          (·.maxCharactersBudget) = some b.maxCharactersBudget) ∧
    (∀ b, mapGet m batchKey = some b →
      ¬ (b.totalCharacters + cfg.getCharacters task.data ≤ b.maxCharactersBudget) →
      (mapGet (addTaskToBatch cfg now m batchKey task).1 batchKey).map
          (·.maxCharactersBudget) =
        some (resolvedBudget (cfg.getCharacters task.data)
          (cfg.getMaxCharactersForTask task.data) cfg.maxCharactersPerBatch) ∧
      (addTaskToBatch cfg now m batchKey task).2 = .flushedThenNew b.tasks) := by
  refine ⟨fun hnone => ?_, fun b hsome hfits => ?_, fun b hsome hover => ?_⟩
  · unfold addTaskToBatch
    rw [hnone]
    simp [mapGet_mapSet_self, createNewPendingBatch]
  · unfold addTaskToBatch
    rw [hsome]
    simp only [hfits, if_pos]
    simp [mapGet_mapSet_self]
  · unfold addTaskToBatch
    rw [hsome]
    simp only [hover, if_neg]
    exact ⟨by simp [mapGet_mapSet_self, createNewPendingBatch], rfl⟩

open BatchQueue in
/-- Witness C9 (amended): appending a fitting task to an existing batch with
budget 7 leaves the budget 7 even though the incoming task carries a
per-task budget of 5 and the global limit is 100. -/
theorem batch_budget_resolution_witness :
    (mapGet (addTaskToBatch cexConfig 0
        [("k", { tasks := [⟨0, 1⟩], totalCharacters := 1, createdAt := 0,
                 maxCharactersBudget := 7 })] "k" ⟨1, 2⟩).1 "k").map
      (·.maxCharactersBudget) = some 7 := by
  exact (batch_budget_resolution cexConfig 0
    [("k", { tasks := [⟨0, 1⟩], totalCharacters := 1, createdAt := 0,
             maxCharactersBudget := 7 })] "k" ⟨1, 2⟩).2.1
    { tasks := [⟨0, 1⟩], totalCharacters := 1, createdAt := 0,
      maxCharactersBudget := 7 } rfl (by decide)

namespace BatchQueue

/-- The mutable queue state `cancelTasks` operates on: the pending-batch
map, the `inFlightTasks` set, and the cancelled flags of all task objects
(see module header). -/
structure QueueState (T : Type) where
  pendingBatchMap : List (String × PendingBatch T)
  inFlightTasks : List (BatchTask T)
  cancelledIds : List Nat
deriving Repr, DecidableEq

/-- The pieces of state `cancelTask` touches while `cancelTasks` runs, plus
the rejections it fires. -/
structure CancelCtx (T : Type) where
  inFlight : List (BatchTask T)
  cancelledIds : List Nat
  rejections : List (Nat × Err)
  count : Nat
deriving Repr, DecidableEq

/-- `cancelTask(task, reason)`: no-op on an already-cancelled task, else set
the cancelled flag, reject with an abort error, and drop the task from the
in-flight set (the boolean return feeds `cancelledCount`). -/
def cancelTaskStep {T : Type} (reason : String) (ctx : CancelCtx T)
    (t : BatchTask T) : CancelCtx T :=
  if isCancelled ctx.cancelledIds t then ctx
  else
    { inFlight := ctx.inFlight.filter (fun u => decide (u.id ≠ t.id))
      cancelledIds := t.id :: ctx.cancelledIds
      rejections := ctx.rejections ++ [(t.id, createAbortError reason)]
      count := ctx.count + 1 }

/-- The inner loop of the pending phase of `cancelTasks`: cancel the
predicate-matching tasks of one batch, keep the rest (in order). -/
def cancelPendingTasks {T : Type} (pred : T → Bool) (reason : String) :
    List (BatchTask T) → CancelCtx T → List (BatchTask T) × CancelCtx T
  | [], ctx => ([], ctx)
  | t :: ts, ctx =>
    if pred t.data then
      cancelPendingTasks pred reason ts (cancelTaskStep reason ctx t)
    else
      let r := cancelPendingTasks pred reason ts ctx
      (t :: r.1, r.2)

/-- The pending phase of `cancelTasks` over the batch map: an emptied batch
is deleted, a surviving batch keeps its remaining tasks with the character
total recomputed (its budget untouched). -/
def cancelPendingPhase {T : Type} (getChars : T → Nat) (pred : T → Bool)
    (reason : String) :
    List (String × PendingBatch T) → CancelCtx T →
      List (String × PendingBatch T) × CancelCtx T
  | [], ctx => ([], ctx)
  | (k, b) :: rest, ctx =>
    let r1 := cancelPendingTasks pred reason b.tasks ctx
    let r2 := cancelPendingPhase getChars pred reason rest r1.2
    if r1.1.isEmpty then r2
    else
      ((k, { b with
          tasks := r1.1
          totalCharacters := (r1.1.map (fun t => getChars t.data)).sum }) :: r2.1,
        r2.2)

/-- The in-flight phase of `cancelTasks`: iterate a snapshot
(`Array.from(this.inFlightTasks)`) and cancel the matching tasks. -/
def cancelInFlightPhase {T : Type} (pred : T → Bool) (reason : String) :
    List (BatchTask T) → CancelCtx T → CancelCtx T
  | [], ctx => ctx
  | t :: ts, ctx =>
    cancelInFlightPhase pred reason ts
      (if pred t.data then cancelTaskStep reason ctx t else ctx)

/-- `cancelTasks(predicate, reason)` (batch-queue.ts lines 91-127): returns
the new state, the rejections fired, and `cancelledCount`. -/
def cancelTasks {T : Type} (getChars : T → Nat) (pred : T → Bool)
    (reason : String) (st : QueueState T) :
    QueueState T × List (Nat × Err) × Nat :=
  let ctx0 : CancelCtx T :=
    { inFlight := st.inFlightTasks, cancelledIds := st.cancelledIds,
      rejections := [], count := 0 }
  let r1 := cancelPendingPhase getChars pred reason st.pendingBatchMap ctx0
  let ctx2 := cancelInFlightPhase pred reason r1.2.inFlight r1.2
  ({ pendingBatchMap := r1.1, inFlightTasks := ctx2.inFlight,
     cancelledIds := ctx2.cancelledIds },
    ctx2.rejections, ctx2.count)

/-- Task `t` sits in some pending batch of map `m`. -/
def InPending {T : Type} (m : List (String × PendingBatch T)) (t : BatchTask T) : Prop :=
  ∃ p ∈ m, t ∈ p.2.tasks

end BatchQueue

namespace Dispatcher

/-- Association-list lookup for the dispatcher's `Map`s. -/
def assocGet {K A : Type} [DecidableEq K] : List (K × A) → K → Option A
  | [], _ => none
  | p :: rest, k => if p.1 = k then some p.2 else assocGet rest k

/-- `map.set(k, v)`. -/
def assocSet {K A : Type} [DecidableEq K] : List (K × A) → K → A → List (K × A)
  | [], k, v => [(k, v)]
  | p :: rest, k, v => if p.1 = k then (k, v) :: rest else p :: assocSet rest k v

/-- `map.delete(k)`. -/
def assocDelete {K A : Type} [DecidableEq K] (m : List (K × A)) (k : K) :
    List (K × A) :=
  m.filter (fun p => decide (p.1 ≠ k))

/-- `clientRequestRegistry` and `tabToClientRequestIds`
(translation-queues.ts lines 96-97); the set of request ids per tab is a
duplicate-free list. -/
structure ClientRegistry where
  clientRequests : List (String × Option Nat)
  tabIndex : List (Nat × List String)
deriving Repr, DecidableEq

/-- `registerClientRequest` (translation-queues.ts lines 101-109). -/
def registerClientRequest (reg : ClientRegistry) (clientRequestId : String)
    (tabId : Option Nat) : ClientRegistry :=
  let reg1 := { reg with
    clientRequests := assocSet reg.clientRequests clientRequestId tabId }
  match tabId with
  | none => reg1
  | some tid =>
    let requestIds := (assocGet reg1.tabIndex tid).getD []
    let requestIds2 :=
      if requestIds.contains clientRequestId then requestIds
      else requestIds ++ [clientRequestId]
    { reg1 with tabIndex := assocSet reg1.tabIndex tid requestIds2 }

/-- `releaseClientRequest` (translation-queues.ts lines 111-126). -/
def releaseClientRequest (reg : ClientRegistry) (clientRequestId : String) :
    ClientRegistry :=
  match assocGet reg.clientRequests clientRequestId with
  | none => reg
  | some tabId =>
    let reg1 := { reg with
      clientRequests := assocDelete reg.clientRequests clientRequestId }
    match tabId with
    | none => reg1
    | some tid =>
      match assocGet reg1.tabIndex tid with
      | none => reg1
      | some requestIds =>
        let requestIds2 := requestIds.filter (fun r => decide (r ≠ clientRequestId))
        if requestIds2.isEmpty then
          { reg1 with tabIndex := assocDelete reg1.tabIndex tid }
        else
          { reg1 with tabIndex := assocSet reg1.tabIndex tid requestIds2 }

/-- The reason string the tab-removal listener passes to every
cancellation. -/
def tabClosedReason : String := "Tab closed before translation finished"

/-- The loop body of the tab-removal listener: for each client request id of
the closed tab, cancel the matching batch-queue tasks and invoke
`cancelActiveGenAIRequest` (the returned id list records those
invocations, in order). -/
def cancelForRequestIds {T : Type} (getChars : T → Nat) (cro : T → String) :
    List String → BatchQueue.QueueState T →
      BatchQueue.QueueState T × List (Nat × Err) × List String
  | [], st => (st, [], [])
  | rid :: rest, st =>
    let r := BatchQueue.cancelTasks getChars (fun d => cro d == rid)
      tabClosedReason st
    let rr := cancelForRequestIds getChars cro rest r.1
    (rr.1, r.2.1 ++ rr.2.1, rid :: rr.2.2)

/-- The `browser.tabs.onRemoved` listener (translation-queues.ts lines
336-350): look up the tab's request ids, delete the tab's index entry, then
cancel every request id. `cro` extracts `clientRequestId` from task data. -/
def onTabRemoved {T : Type} (getChars : T → Nat) (cro : T → String)
    (tabId : Nat) (reg : ClientRegistry) (st : BatchQueue.QueueState T) :
    ClientRegistry × BatchQueue.QueueState T × List (Nat × Err) × List String :=
  match assocGet reg.tabIndex tabId with
  | none => (reg, st, [], [])
  | some requestIds =>
    if requestIds.isEmpty then (reg, st, [], [])
    else
      let reg2 := { reg with tabIndex := assocDelete reg.tabIndex tabId }
      let r := cancelForRequestIds getChars cro requestIds st
      (reg2, r.1, r.2.1, r.2.2)

end Dispatcher

namespace BatchQueue

/-- Transition invariant of the cancel machinery: cancelled flags only ever
get set, rejections only accumulate, an in-flight task either survives or
has its id cancelled, and every newly cancelled id has fired an abort-typed
rejection. -/
def CtxStep {T : Type} (reason : String) (ctx ctx2 : CancelCtx T) : Prop :=
  (∀ id, id ∈ ctx.cancelledIds → id ∈ ctx2.cancelledIds) ∧
  (∀ a, a ∈ ctx.rejections → a ∈ ctx2.rejections) ∧
  (∀ u : BatchTask T, (u.id ∈ ctx.cancelledIds ∨ u ∈ ctx.inFlight) →
    (u.id ∈ ctx2.cancelledIds ∨ u ∈ ctx2.inFlight)) ∧
  (∀ id, id ∈ ctx2.cancelledIds →
    id ∈ ctx.cancelledIds ∨ (id, createAbortError reason) ∈ ctx2.rejections)

theorem ctxStep_refl {T : Type} (reason : String) (ctx : CancelCtx T) :
    CtxStep reason ctx ctx :=
  ⟨fun _ h => h, fun _ h => h, fun _ h => h, fun _ h => .inl h⟩

theorem ctxStep_trans {T : Type} {reason : String} {c1 c2 c3 : CancelCtx T}
    (h12 : CtxStep reason c1 c2) (h23 : CtxStep reason c2 c3) :
    CtxStep reason c1 c3 := by
  obtain ⟨a12, b12, f12, n12⟩ := h12
  obtain ⟨a23, b23, f23, n23⟩ := h23
  refine ⟨fun i h => a23 i (a12 i h), fun x h => b23 x (b12 x h),
    fun u h => f23 u (f12 u h), fun i h => ?_⟩
  rcases n23 i h with h2 | hr
  · rcases n12 i h2 with h1 | hr
    · exact .inl h1
    · exact .inr (b23 _ hr)
  · exact .inr hr

theorem cancelTaskStep_ctxStep {T : Type} (reason : String) (ctx : CancelCtx T)
    (t : BatchTask T) : CtxStep reason ctx (cancelTaskStep reason ctx t) := by
  unfold cancelTaskStep
  by_cases hc : isCancelled ctx.cancelledIds t
  · simp only [hc, if_pos]
    exact ctxStep_refl reason ctx
  · simp only [hc, if_neg, not_false_iff]
    refine ⟨fun i h => .tail _ h, fun x h => List.mem_append_left _ h,
      fun u h => ?_, fun i h => ?_⟩
    · rcases h with h | h
      · exact .inl (.tail _ h)
      · by_cases hid : u.id = t.id
        · exact .inl (hid ▸ List.mem_cons_self _ _)
        · refine .inr (List.mem_filter.mpr ⟨h, by simpa using hid⟩)
    · rcases List.mem_cons.mp h with h | h
      · exact .inr (List.mem_append_right _ (h ▸ List.mem_cons_self _ _))
      · exact .inl h

theorem cancelTaskStep_cancels {T : Type} (reason : String) (ctx : CancelCtx T)
    (t : BatchTask T) : t.id ∈ (cancelTaskStep reason ctx t).cancelledIds := by
  unfold cancelTaskStep
  by_cases hc : isCancelled ctx.cancelledIds t
  · simp only [hc, if_pos]
    simpa [isCancelled] using hc
  · simp [hc]

theorem cancelPendingTasks_ctxStep {T : Type} (pred : T → Bool)
    (reason : String) (l : List (BatchTask T)) (ctx : CancelCtx T) :
    CtxStep reason ctx (cancelPendingTasks pred reason l ctx).2 := by
  induction l generalizing ctx with
  | nil => exact ctxStep_refl reason ctx
  | cons t ts ih =>
    unfold cancelPendingTasks
    by_cases hp : pred t.data
    · simp only [hp, if_pos]
      exact ctxStep_trans (cancelTaskStep_ctxStep reason ctx t)
        (ih (cancelTaskStep reason ctx t))
    · simp only [hp, if_neg, not_false_iff]
      exact ih ctx

theorem cancelPendingTasks_fst {T : Type} (pred : T → Bool) (reason : String)
    (l : List (BatchTask T)) (ctx : CancelCtx T) :
    (cancelPendingTasks pred reason l ctx).1 = l.filter (fun t => !pred t.data) := by
  induction l generalizing ctx with
  | nil => rfl
  | cons t ts ih =>
    unfold cancelPendingTasks
    by_cases hp : pred t.data
    · simp [hp, ih]
    · simp only [hp, if_neg, not_false_iff, List.filter_cons]
      simp [hp, ih]

theorem cancelPendingTasks_cancels {T : Type} (pred : T → Bool)
    (reason : String) (l : List (BatchTask T)) (ctx : CancelCtx T)
    (t : BatchTask T) (ht : t ∈ l) (hp : pred t.data = true) :
    t.id ∈ (cancelPendingTasks pred reason l ctx).2.cancelledIds := by
  induction l generalizing ctx with
  | nil => cases ht
  | cons u us ih =>
    rcases List.mem_cons.mp ht with rfl | hmem
    · unfold cancelPendingTasks
      simp only [hp, if_pos]
      exact (cancelPendingTasks_ctxStep pred reason us _).1 _
        (cancelTaskStep_cancels reason ctx t)
    · unfold cancelPendingTasks
      by_cases hu : pred u.data
      · simp only [hu, if_pos]
        exact ih _ hmem
      · simp only [hu, if_neg, not_false_iff]
        exact ih _ hmem

theorem cancelInFlightPhase_ctxStep {T : Type} (pred : T → Bool)
    (reason : String) (l : List (BatchTask T)) (ctx : CancelCtx T) :
    CtxStep reason ctx (cancelInFlightPhase pred reason l ctx) := by
  induction l generalizing ctx with
  | nil => exact ctxStep_refl reason ctx
  | cons t ts ih =>
    unfold cancelInFlightPhase
    by_cases hp : pred t.data
    · simp only [hp, if_pos]
      exact ctxStep_trans (cancelTaskStep_ctxStep reason ctx t) (ih _)
    · simp only [hp, if_neg, not_false_iff]
      exact ih ctx

theorem cancelInFlightPhase_cancels {T : Type} (pred : T → Bool)
    (reason : String) (l : List (BatchTask T)) (ctx : CancelCtx T)
    (u : BatchTask T) (hu : u ∈ l) (hp : pred u.data = true) :
    u.id ∈ (cancelInFlightPhase pred reason l ctx).cancelledIds := by
  induction l generalizing ctx with
  | nil => cases hu
  | cons t ts ih =>
    rcases List.mem_cons.mp hu with rfl | hmem
    · unfold cancelInFlightPhase
      simp only [hp, if_pos]
      exact (cancelInFlightPhase_ctxStep pred reason ts _).1 _
        (cancelTaskStep_cancels reason ctx u)
    · unfold cancelInFlightPhase
      by_cases ht : pred t.data
      · simp only [ht, if_pos]
        exact ih _ hmem
      · simp only [ht, if_neg, not_false_iff]
        exact ih _ hmem

theorem cancelPendingPhase_ctxStep {T : Type} (getChars : T → Nat)
    (pred : T → Bool) (reason : String) (m : List (String × PendingBatch T))
    (ctx : CancelCtx T) :
    CtxStep reason ctx (cancelPendingPhase getChars pred reason m ctx).2 := by
  induction m generalizing ctx with
  | nil => exact ctxStep_refl reason ctx
  | cons p rest ih =>
    obtain ⟨k, b⟩ := p
    unfold cancelPendingPhase
    by_cases he : (cancelPendingTasks pred reason b.tasks ctx).1.isEmpty
    · simp only [he, if_pos]
      exact ctxStep_trans (cancelPendingTasks_ctxStep pred reason b.tasks ctx) (ih _)
    · simp only [he, if_neg, not_false_iff]
      exact ctxStep_trans (cancelPendingTasks_ctxStep pred reason b.tasks ctx) (ih _)

theorem cancelPendingPhase_removes {T : Type} (getChars : T → Nat)
    (pred : T → Bool) (reason : String) (m : List (String × PendingBatch T))
    (ctx : CancelCtx T) (t : BatchTask T) (hp : pred t.data = true) :
    ¬ InPending (cancelPendingPhase getChars pred reason m ctx).1 t := by
  induction m generalizing ctx with
  | nil =>
    rintro ⟨p, hpmem, -⟩
    simp [cancelPendingPhase] at hpmem
  | cons q rest ih =>
    obtain ⟨k, b⟩ := q
    unfold cancelPendingPhase
    by_cases he : (cancelPendingTasks pred reason b.tasks ctx).1.isEmpty
    · simp only [he, if_pos]
      exact ih _
    · simp only [he, if_neg, not_false_iff]
      rintro ⟨p, hpmem, htmem⟩
      rcases List.mem_cons.mp hpmem with rfl | hrest
      · rw [cancelPendingTasks_fst] at htmem
        have := List.of_mem_filter htmem
        simp [hp] at this
      · exact ih _ ⟨p, hrest, htmem⟩

theorem cancelPendingPhase_keeps {T : Type} (getChars : T → Nat)
    (pred : T → Bool) (reason : String) (m : List (String × PendingBatch T))
    (ctx : CancelCtx T) (t : BatchTask T) (hp : pred t.data = false)
    (hin : InPending m t) :
    InPending (cancelPendingPhase getChars pred reason m ctx).1 t := by
  induction m generalizing ctx with
  | nil =>
    obtain ⟨p, hpmem, -⟩ := hin
    cases hpmem
  | cons q rest ih =>
    obtain ⟨k, b⟩ := q
    obtain ⟨p, hpmem, htmem⟩ := hin
    unfold cancelPendingPhase
    rcases List.mem_cons.mp hpmem with rfl | hrest
    · have hkeep : t ∈ (cancelPendingTasks pred reason b.tasks ctx).1 := by
        rw [cancelPendingTasks_fst]
        exact List.mem_filter.mpr ⟨htmem, by simp [hp]⟩
      have hne : ¬ (cancelPendingTasks pred reason b.tasks ctx).1.isEmpty := by
        intro habs
        rw [List.isEmpty_iff] at habs
        rw [habs] at hkeep
        cases hkeep
      simp only [hne, if_neg, not_false_iff]
      exact ⟨_, List.mem_cons_self _ _, hkeep⟩
    · by_cases he : (cancelPendingTasks pred reason b.tasks ctx).1.isEmpty
      · simp only [he, if_pos]
        exact ih _ ⟨p, hrest, htmem⟩
      · simp only [he, if_neg, not_false_iff]
        obtain ⟨p2, hp2, ht2⟩ := ih (cancelPendingTasks pred reason b.tasks ctx).2
          ⟨p, hrest, htmem⟩
        exact ⟨p2, List.mem_cons_of_mem _ hp2, ht2⟩

theorem cancelPendingPhase_sub {T : Type} (getChars : T → Nat)
    (pred : T → Bool) (reason : String) (m : List (String × PendingBatch T))
    (ctx : CancelCtx T) (t : BatchTask T)
    (hin : InPending (cancelPendingPhase getChars pred reason m ctx).1 t) :
    InPending m t := by
  induction m generalizing ctx with
  | nil =>
    obtain ⟨p, hpmem, -⟩ := hin
    simp [cancelPendingPhase] at hpmem
  | cons q rest ih =>
    obtain ⟨k, b⟩ := q
    unfold cancelPendingPhase at hin
    by_cases he : (cancelPendingTasks pred reason b.tasks ctx).1.isEmpty
    · simp only [he, if_pos] at hin
      obtain ⟨p, hpmem, htmem⟩ := ih _ hin
      exact ⟨p, List.mem_cons_of_mem _ hpmem, htmem⟩
    · simp only [he, if_neg, not_false_iff] at hin
      obtain ⟨p, hpmem, htmem⟩ := hin
      rcases List.mem_cons.mp hpmem with rfl | hrest
      · rw [cancelPendingTasks_fst] at htmem
        exact ⟨(k, b), List.mem_cons_self _ _, List.mem_of_mem_filter htmem⟩
      · obtain ⟨p2, hp2, ht2⟩ := ih _ ⟨p, hrest, htmem⟩
        exact ⟨p2, List.mem_cons_of_mem _ hp2, ht2⟩

theorem cancelPendingPhase_cancels {T : Type} (getChars : T → Nat)
    (pred : T → Bool) (reason : String) (m : List (String × PendingBatch T))
    (ctx : CancelCtx T) (t : BatchTask T) (hp : pred t.data = true)
    (hin : InPending m t) :
    t.id ∈ (cancelPendingPhase getChars pred reason m ctx).2.cancelledIds := by
  induction m generalizing ctx with
  | nil =>
    obtain ⟨p, hpmem, -⟩ := hin
    cases hpmem
  | cons q rest ih =>
    obtain ⟨k, b⟩ := q
    obtain ⟨p, hpmem, htmem⟩ := hin
    unfold cancelPendingPhase
    rcases List.mem_cons.mp hpmem with rfl | hrest
    · have hc : t.id ∈ (cancelPendingTasks pred reason b.tasks ctx).2.cancelledIds :=
        cancelPendingTasks_cancels pred reason _ ctx t htmem hp
      have hmono := (cancelPendingPhase_ctxStep getChars pred reason rest
        (cancelPendingTasks pred reason b.tasks ctx).2).1 _ hc
      by_cases he : (cancelPendingTasks pred reason b.tasks ctx).1.isEmpty
      · simp only [he, if_pos]
        exact hmono
      · simp only [he, if_neg, not_false_iff]
        exact hmono
    · by_cases he : (cancelPendingTasks pred reason b.tasks ctx).1.isEmpty
      · simp only [he, if_pos]
        exact ih _ ⟨p, hrest, htmem⟩
      · simp only [he, if_neg, not_false_iff]
        exact ih _ ⟨p, hrest, htmem⟩

theorem isCancelled_iff {T : Type} (c : List Nat) (t : BatchTask T) :
    isCancelled c t = true ↔ t.id ∈ c := by
  simp [isCancelled]

/-- An id whose cancelled flag is set never receives a delivery from batch
resolution. -/
theorem resolveDeliveries_not_delivered {T : Type} (c : List Nat) (id : Nat)
    (hc : id ∈ c) (active : List (BatchTask T)) (results : List String)
    (d : String) : (id, d) ∉ resolveDeliveries c active results := by
  intro hmem
  obtain ⟨p, hp, heq⟩ := List.mem_filterMap.mp hmem
  by_cases h1 : isCancelled c p.1
  · rw [if_pos h1] at heq
    cases heq
  · rw [if_neg h1] at heq
    have hid : p.1.id = id := by
      have := congrArg (fun o => o.map Prod.fst) heq
      simpa using this
    exact h1 ((isCancelled_iff c p.1).mpr (hid ▸ hc))

/-- The initial `CancelCtx` of a `cancelTasks` run. -/
def initCtx {T : Type} (st : QueueState T) : CancelCtx T :=
  { inFlight := st.inFlightTasks, cancelledIds := st.cancelledIds,
    rejections := [], count := 0 }

/-- The final `CancelCtx` of a `cancelTasks` run. -/
def finalCtx {T : Type} (getChars : T → Nat) (pred : T → Bool) (reason : String)
    (st : QueueState T) : CancelCtx T :=
  cancelInFlightPhase pred reason
    (cancelPendingPhase getChars pred reason st.pendingBatchMap (initCtx st)).2.inFlight
    (cancelPendingPhase getChars pred reason st.pendingBatchMap (initCtx st)).2

theorem cancelTasks_eq {T : Type} (getChars : T → Nat) (pred : T → Bool)
    (reason : String) (st : QueueState T) :
    cancelTasks getChars pred reason st =
      ({ pendingBatchMap :=
            (cancelPendingPhase getChars pred reason st.pendingBatchMap (initCtx st)).1,
         inFlightTasks := (finalCtx getChars pred reason st).inFlight,
         cancelledIds := (finalCtx getChars pred reason st).cancelledIds },
        (finalCtx getChars pred reason st).rejections,
        (finalCtx getChars pred reason st).count) := rfl

theorem cancelTasks_ctxStep {T : Type} (getChars : T → Nat) (pred : T → Bool)
    (reason : String) (st : QueueState T) :
    CtxStep reason (initCtx st) (finalCtx getChars pred reason st) :=
  ctxStep_trans
    (cancelPendingPhase_ctxStep getChars pred reason st.pendingBatchMap (initCtx st))
    (cancelInFlightPhase_ctxStep pred reason _ _)

theorem cancelTasks_inFlight_cancels {T : Type} (getChars : T → Nat)
    (pred : T → Bool) (reason : String) (st : QueueState T) (u : BatchTask T)
    (hu : u ∈ st.inFlightTasks) (hp : pred u.data = true) :
    u.id ∈ (finalCtx getChars pred reason st).cancelledIds := by
  have hdisj := (cancelPendingPhase_ctxStep getChars pred reason
    st.pendingBatchMap (initCtx st)).2.2.1 u (.inr hu)
  rcases hdisj with hc | hf
  · exact (cancelInFlightPhase_ctxStep pred reason _ _).1 _ hc
  · exact cancelInFlightPhase_cancels pred reason _ _ u hf hp

theorem cancelTasks_pending_cancels {T : Type} (getChars : T → Nat)
    (pred : T → Bool) (reason : String) (st : QueueState T) (t : BatchTask T)
    (hin : InPending st.pendingBatchMap t) (hp : pred t.data = true) :
    t.id ∈ (finalCtx getChars pred reason st).cancelledIds :=
  (cancelInFlightPhase_ctxStep pred reason _ _).1 _
    (cancelPendingPhase_cancels getChars pred reason st.pendingBatchMap
      (initCtx st) t hp hin)

end BatchQueue

namespace Dispatcher

open BatchQueue

theorem cancelForRequestIds_genai {T : Type} (getChars : T → Nat)
    (cro : T → String) (rids : List String) (st : QueueState T) :
    (cancelForRequestIds getChars cro rids st).2.2 = rids := by
  induction rids generalizing st with
  | nil => rfl
  | cons rid rest ih =>
    unfold cancelForRequestIds
    simp [ih]

theorem cancelForRequestIds_cancMono {T : Type} (getChars : T → Nat)
    (cro : T → String) (rids : List String) (st : QueueState T) (id : Nat)
    (h : id ∈ st.cancelledIds) :
    id ∈ (cancelForRequestIds getChars cro rids st).1.cancelledIds := by
  induction rids generalizing st with
  | nil => exact h
  | cons rid rest ih =>
    unfold cancelForRequestIds
    refine ih _ ?_
    rw [cancelTasks_eq]
    exact (cancelTasks_ctxStep getChars (fun d => cro d == rid)
      tabClosedReason st).1 id h

theorem cancelForRequestIds_pendSub {T : Type} (getChars : T → Nat)
    (cro : T → String) (rids : List String) (st : QueueState T)
    (t : BatchTask T)
    (h : InPending (cancelForRequestIds getChars cro rids st).1.pendingBatchMap t) :
    InPending st.pendingBatchMap t := by
  induction rids generalizing st with
  | nil => exact h
  | cons rid rest ih =>
    unfold cancelForRequestIds at h
    have h2 := ih _ h
    rw [cancelTasks_eq] at h2
    exact cancelPendingPhase_sub getChars _ tabClosedReason
      st.pendingBatchMap (initCtx st) t h2

theorem cancelForRequestIds_rej {T : Type} (getChars : T → Nat)
    (cro : T → String) (rids : List String) (st : QueueState T) (id : Nat)
    (hnot : id ∉ st.cancelledIds)
    (hin : id ∈ (cancelForRequestIds getChars cro rids st).1.cancelledIds) :
    (id, createAbortError tabClosedReason) ∈
      (cancelForRequestIds getChars cro rids st).2.1 := by
  induction rids generalizing st with
  | nil => exact absurd hin hnot
  | cons rid rest ih =>
    unfold cancelForRequestIds at hin ⊢
    by_cases hmid : id ∈ (cancelTasks getChars (fun d => cro d == rid)
        tabClosedReason st).1.cancelledIds
    · rw [cancelTasks_eq] at hmid
      rcases (cancelTasks_ctxStep getChars (fun d => cro d == rid)
          tabClosedReason st).2.2.2 id hmid with h0 | hr
      · exact absurd h0 hnot
      · refine List.mem_append_left _ ?_
        rw [cancelTasks_eq]
        exact hr
    · exact List.mem_append_right _ (ih _ hmid hin)

theorem cancelForRequestIds_inFlight {T : Type} (getChars : T → Nat)
    (cro : T → String) (rids : List String) (st : QueueState T) (r : String)
    (u : BatchTask T) (hr : r ∈ rids) (hcro : cro u.data = r)
    (hdisj : u.id ∈ st.cancelledIds ∨ u ∈ st.inFlightTasks) :
    u.id ∈ (cancelForRequestIds getChars cro rids st).1.cancelledIds := by
  induction rids generalizing st with
  | nil => cases hr
  | cons rid rest ih =>
    unfold cancelForRequestIds
    by_cases heq : r = rid
    · have hc : u.id ∈ (cancelTasks getChars (fun d => cro d == rid)
          tabClosedReason st).1.cancelledIds := by
        rw [cancelTasks_eq]
        rcases hdisj with hcc | hf
        · exact (cancelTasks_ctxStep getChars (fun d => cro d == rid)
            tabClosedReason st).1 _ hcc
        · exact cancelTasks_inFlight_cancels getChars _ tabClosedReason st u hf
            (by simp [hcro, heq])
      exact cancelForRequestIds_cancMono getChars cro rest _ _ hc
    · have hr2 : r ∈ rest := by
        rcases List.mem_cons.mp hr with h | h
        · exact absurd h heq
        · exact h
      refine ih _ hr2 ?_
      rw [cancelTasks_eq]
      exact (cancelTasks_ctxStep getChars (fun d => cro d == rid)
        tabClosedReason st).2.2.1 u hdisj

theorem cancelForRequestIds_pending {T : Type} (getChars : T → Nat)
    (cro : T → String) (rids : List String) (st : QueueState T) (r : String)
    (t : BatchTask T) (hr : r ∈ rids) (hcro : cro t.data = r)
    (hdisj : t.id ∈ st.cancelledIds ∨ InPending st.pendingBatchMap t) :
    t.id ∈ (cancelForRequestIds getChars cro rids st).1.cancelledIds ∧
      ¬ InPending (cancelForRequestIds getChars cro rids st).1.pendingBatchMap t := by
  induction rids generalizing st with
  | nil => cases hr
  | cons rid rest ih =>
    unfold cancelForRequestIds
    by_cases heq : r = rid
    · have hpred : (fun d => cro d == rid) t.data = true := by simp [hcro, heq]
      have hc : t.id ∈ (cancelTasks getChars (fun d => cro d == rid)
          tabClosedReason st).1.cancelledIds := by
        rw [cancelTasks_eq]
        rcases hdisj with hcc | hf
        · exact (cancelTasks_ctxStep getChars (fun d => cro d == rid)
            tabClosedReason st).1 _ hcc
        · exact cancelTasks_pending_cancels getChars _ tabClosedReason st t hf hpred
      have hout : ¬ InPending (cancelTasks getChars (fun d => cro d == rid)
          tabClosedReason st).1.pendingBatchMap t := by
        rw [cancelTasks_eq]
        exact cancelPendingPhase_removes getChars _ tabClosedReason
          st.pendingBatchMap (initCtx st) t hpred
      refine ⟨cancelForRequestIds_cancMono getChars cro rest _ _ hc, ?_⟩
      intro habs
      exact hout (cancelForRequestIds_pendSub getChars cro rest _ t habs)
    · have hr2 : r ∈ rest := by
        rcases List.mem_cons.mp hr with h | h
        · exact absurd h heq
        · exact h
      have hpred : (fun d => cro d == rid) t.data = false := by
        simp [hcro]
        exact heq
      refine ih _ hr2 ?_
      rcases hdisj with hcc | hf
      · refine .inl ?_
        rw [cancelTasks_eq]
        exact (cancelTasks_ctxStep getChars (fun d => cro d == rid)
          tabClosedReason st).1 _ hcc
      · refine .inr ?_
        rw [cancelTasks_eq]
        exact cancelPendingPhase_keeps getChars _ tabClosedReason
          st.pendingBatchMap (initCtx st) t hpred hf

theorem assocGet_assocDelete {K A : Type} [DecidableEq K]
    (m : List (K × A)) (k : K) : assocGet (assocDelete m k) k = none := by
  induction m with
  | nil => rfl
  | cons p rest ih =>
    unfold assocDelete at ih ⊢
    by_cases hp : p.1 = k
    · simp only [List.filter_cons, hp]
      simpa using ih
    · simp only [List.filter_cons]
      rw [if_pos (by simpa using hp)]
      unfold assocGet
      rw [if_neg hp]
      exact ih

end Dispatcher

open BatchQueue Dispatcher in
/-- C7. When the browser reports tab `tabId` removed and `r` is one of the
client request ids registered under that tab: the tab's entry in the
tab-to-request index is removed; the GenAI cancel handler is invoked for
`r`; every task in a pending batch whose data carries `r` is removed from
the pending batches and (if not already cancelled) rejected with an
abort-typed error; and every in-flight task carrying `r` is marked
cancelled, so no delivery for its id is ever produced by batch
resolution. -/
theorem tab_close_cancels_client_requests {T : Type} (getChars : T → Nat)
    (cro : T → String) (tabId : Nat) (reg : ClientRegistry)
    (st : QueueState T) (rids : List String) (r : String)
    (hlk : assocGet reg.tabIndex tabId = some rids) (hr : r ∈ rids) :
    assocGet (onTabRemoved getChars cro tabId reg st).1.tabIndex tabId = none ∧
    r ∈ (onTabRemoved getChars cro tabId reg st).2.2.2 ∧
    (∀ t : BatchTask T, cro t.data = r → InPending st.pendingBatchMap t →
      ¬ InPending (onTabRemoved getChars cro tabId reg st).2.1.pendingBatchMap t ∧
      (t.id ∉ st.cancelledIds →
        (t.id, createAbortError tabClosedReason) ∈
          (onTabRemoved getChars cro tabId reg st).2.2.1 ∧
        (createAbortError tabClosedReason).name = "AbortError")) ∧
    (∀ u : BatchTask T, cro u.data = r → u ∈ st.inFlightTasks →
      u.id ∈ (onTabRemoved getChars cro tabId reg st).2.1.cancelledIds ∧
      ∀ (active : List (BatchTask T)) (results : List String) (d : String),
        (u.id, d) ∉
          resolveDeliveries (onTabRemoved getChars cro tabId reg st).2.1.cancelledIds
            active results) := by
  have hne : rids.isEmpty = false := by
    cases rids with
    | nil => cases hr
    | cons a l => rfl
  have hout : onTabRemoved getChars cro tabId reg st =
      ({ reg with tabIndex := assocDelete reg.tabIndex tabId },
        (cancelForRequestIds getChars cro rids st).1,
        (cancelForRequestIds getChars cro rids st).2.1,
        (cancelForRequestIds getChars cro rids st).2.2) := by
    unfold onTabRemoved
    rw [hlk]
    simp [hne]
  rw [hout]
  refine ⟨assocGet_assocDelete reg.tabIndex tabId, ?_, fun t hcro hin => ?_,
    fun u hcro hu => ?_⟩
  · rw [cancelForRequestIds_genai]
    exact hr
  · have hmain := cancelForRequestIds_pending getChars cro rids st r t hr hcro
      (.inr hin)
    refine ⟨hmain.2, fun hnot => ⟨?_, rfl⟩⟩
    exact cancelForRequestIds_rej getChars cro rids st t.id hnot hmain.1
  · have hc := cancelForRequestIds_inFlight getChars cro rids st r u hr hcro
      (.inr hu)
    exact ⟨hc, fun active results d =>
      resolveDeliveries_not_delivered _ u.id hc active results d⟩
namespace Dispatcher

/-- Concrete registry for the C7 witness: tab 7 owns request id `r1`. -/
def wit7reg : ClientRegistry :=
  { clientRequests := [("r1", some 7)], tabIndex := [(7, ["r1"])] }

/-- Concrete queue state for the C7 witness: one pending task and one
in-flight task, both carrying request id `r1` as their data. -/
def wit7st : BatchQueue.QueueState String :=
  { pendingBatchMap :=
      [("k", { tasks := [{ id := 0, data := "r1" }], totalCharacters := 2,
               createdAt := 0, maxCharactersBudget := 100 })]
    inFlightTasks := [{ id := 1, data := "r1" }]
    cancelledIds := [] }

end Dispatcher

open BatchQueue Dispatcher in
/-- Witness C7: tab 7 owns request id `r1`; one pending task and one
in-flight task carry `r1`. The tab-removed handler clears the index entry,
invokes the GenAI cancel hook for `r1`, evicts and abort-rejects the
pending task, and marks the in-flight task cancelled. -/
theorem tab_close_cancels_client_requests_witness :
    assocGet (onTabRemoved (T := String) String.length (fun s => s) 7
        wit7reg wit7st).1.tabIndex 7 = none ∧
    "r1" ∈ (onTabRemoved (T := String) String.length (fun s => s) 7
        wit7reg wit7st).2.2.2 ∧
    (∀ t : BatchTask String, (fun s => s) t.data = "r1" →
      InPending wit7st.pendingBatchMap t →
      ¬ InPending (onTabRemoved (T := String) String.length (fun s => s) 7
          wit7reg wit7st).2.1.pendingBatchMap t ∧
      (t.id ∉ wit7st.cancelledIds →
        (t.id, createAbortError tabClosedReason) ∈
          (onTabRemoved (T := String) String.length (fun s => s) 7
            wit7reg wit7st).2.2.1 ∧
        (createAbortError tabClosedReason).name = "AbortError")) ∧
    (∀ u : BatchTask String, (fun s => s) u.data = "r1" →
      u ∈ wit7st.inFlightTasks →
      u.id ∈ (onTabRemoved (T := String) String.length (fun s => s) 7
          wit7reg wit7st).2.1.cancelledIds ∧
      ∀ (active : List (BatchTask String)) (results : List String) (d : String),
        (u.id, d) ∉
          resolveDeliveries (onTabRemoved (T := String) String.length (fun s => s) 7
              wit7reg wit7st).2.1.cancelledIds active results) :=
  tab_close_cancels_client_requests (T := String) String.length (fun s => s) 7
    wit7reg wit7st ["r1"] "r1" rfl (by decide)

namespace Dispatcher

/-- A `translationCache` row (the `createdAt` timestamp is never read and is
elided). -/
structure CacheEntry where
  translation : String
deriving Repr, DecidableEq

/-- The content-addressed translation cache, keyed by the request hash. -/
abbrev Cache := List (String × CacheEntry)

/-- `db.translationCache.get(hash)`. -/
def cacheGet (c : Cache) (k : String) : Option CacheEntry := assocGet c k

/-- `db.translationCache.put({key, translation, createdAt})`. -/
def cachePut (c : Cache) (k : String) (v : String) : Cache :=
  assocSet c k { translation := v }

theorem cacheGet_cachePut_self (c : Cache) (k : String) (v : String) :
    cacheGet (cachePut c k v) k = some { translation := v } := by
  unfold cacheGet cachePut
  induction c with
  | nil => simp [assocSet, assocGet]
  | cons p rest ih =>
    by_cases hp : p.1 = k
    · simp [assocSet, assocGet, hp]
    · simp [assocSet, assocGet, hp, ih]

/-- The fields of an `enqueueTranslateRequest` message the cache behaviour
depends on. JS string truthiness of `hash` is `hash ≠ ""`. -/
structure TranslateRequest where
  text : String
  hash : String
  clientRequestId : String
  tabId : Option Nat
deriving Repr, DecidableEq

/-- Background state the `enqueueTranslateRequest` handler touches.
`providerCalls` counts how often the request was dispatched to the provider
branch (batch queue / request queue / GenAI path). -/
structure DispatchState where
  cache : Cache
  registry : ClientRegistry
  providerCalls : Nat
deriving Repr, DecidableEq

/-- The `registerClientRequest` at entry composed with the
`releaseClientRequest` of the handler's `finally` block. -/
def churnRegistry (st : DispatchState) (req : TranslateRequest) : ClientRegistry :=
  releaseClientRequest (registerClientRequest st.registry req.clientRequestId req.tabId) req.clientRequestId

/-- The `enqueueTranslateRequest` handler (translation-queues.ts lines
352-430): register the client request, short-circuit on a cache hit, else
dispatch to the provider branch (its settled outcome abstracted as
`dispatchResult`), cache a truthy result when a truthy hash was supplied,
and release the registration in the `finally`. -/
def enqueueTranslateRequest (dispatchResult : Except Err String)
    (st : DispatchState) (req : TranslateRequest) :
    Except Err String × DispatchState :=
  match (if req.hash ≠ "" then cacheGet st.cache req.hash else none) with
  | some cached =>
    (.ok cached.translation, { st with registry := churnRegistry st req })
  | none =>
    match dispatchResult with
    | .error e =>
      (.error e, { st with providerCalls := st.providerCalls + 1, registry := churnRegistry st req })
    | .ok result =>
      (.ok result,
        { cache := if result ≠ "" ∧ req.hash ≠ "" then cachePut st.cache req.hash result else st.cache,
          providerCalls := st.providerCalls + 1,
          registry := churnRegistry st req })

/-- A cache hit resolves to the cached translation and leaves cache and
provider-call count untouched (shared workhorse for the cache claims). -/
theorem enqueue_cache_hit (d : Except Err String) (st : DispatchState)
    (req : TranslateRequest) (hh : req.hash ≠ "") (entry : CacheEntry)
    (hentry : cacheGet st.cache req.hash = some entry) :
    enqueueTranslateRequest d st req =
      (.ok entry.translation, { st with registry := churnRegistry st req }) := by
  unfold enqueueTranslateRequest
  rw [if_pos hh, hentry]

/-- After a successful dispatch with a truthy result and hash, the cache
holds exactly that result under the hash (shared workhorse for the cache
claims). -/
theorem cacheGet_after_success (d : Except Err String) (st : DispatchState)
    (req : TranslateRequest) (r : String)
    (hres : (enqueueTranslateRequest d st req).1 = .ok r) (hr : r ≠ "")
    (hh : req.hash ≠ "") :
    cacheGet (enqueueTranslateRequest d st req).2.cache req.hash =
      some { translation := r } := by
  unfold enqueueTranslateRequest at hres ⊢
  rw [if_pos hh] at hres ⊢
  cases hget : cacheGet st.cache req.hash with
  | some entry =>
    obtain ⟨tr⟩ := entry
    rw [hget] at hres
    dsimp only at hres
    injection hres with h
    subst h
    exact hget
  | none =>
    rw [hget] at hres
    cases d with
    | error e =>
      dsimp only at hres
      cases hres
    | ok result =>
      dsimp only at hres ⊢
      injection hres with h
      subst h
      rw [if_pos ⟨hr, hh⟩]
      exact cacheGet_cachePut_self st.cache req.hash result

/-- Concrete inputs for the C2/C8 counterexamples: an empty cache and a
request carrying hash `"h"`, with the provider branch resolving to the
empty string. -/
def wit2st : DispatchState :=
  { cache := [], registry := { clientRequests := [], tabIndex := [] },
    providerCalls := 0 }

/-- The request of the C2 counterexample. -/
def wit2req : TranslateRequest :=
  { text := "hi", hash := "h", clientRequestId := "c", tabId := none }

end Dispatcher

open Dispatcher in
/-- Counterexample C2. A first enqueue of hash `"h"` succeeds with the empty
translation (`if (result && hash)` skips the cache write), so a second
enqueue of the same hash dispatches to the provider again: the round-trip
"after one successful enqueue, a second enqueue with the same hash resolves
from the cache alone" fails when the successful result is the empty
string. -/
theorem cache_round_trip_counterexample :
    (enqueueTranslateRequest (.ok "") wit2st wit2req).1 = .ok "" ∧
    (enqueueTranslateRequest (.ok "")
        (enqueueTranslateRequest (.ok "") wit2st wit2req).2 wit2req).2.providerCalls = 2 ∧
    ¬ (enqueueTranslateRequest (.ok "")
        (enqueueTranslateRequest (.ok "") wit2st wit2req).2 wit2req).2.providerCalls =
      (enqueueTranslateRequest (.ok "") wit2st wit2req).2.providerCalls := by
  refine ⟨rfl, rfl, ?_⟩
  decide

open Dispatcher in
/-- C2 (amended). A request carrying a non-empty hash with a cache entry
present at dispatch time resolves to that cached translation without any
provider dispatch and without touching the cache; hence after one enqueue
that succeeds with a non-empty translation, a second enqueue with the same
hash resolves to the same translation from the cache alone (no provider
dispatch, whatever the provider branch would have produced). -/
theorem cache_hit_short_circuit (d d2 : Except Err String)
    (st : DispatchState) (req : TranslateRequest) (hh : req.hash ≠ "") :
    (∀ entry, cacheGet st.cache req.hash = some entry →
      (enqueueTranslateRequest d st req).1 = .ok entry.translation ∧
      (enqueueTranslateRequest d st req).2.providerCalls = st.providerCalls ∧
      (enqueueTranslateRequest d st req).2.cache = st.cache) ∧
    (∀ r, (enqueueTranslateRequest d st req).1 = .ok r → r ≠ "" →
      (enqueueTranslateRequest d2 (enqueueTranslateRequest d st req).2 req).1 = .ok r ∧
      (enqueueTranslateRequest d2 (enqueueTranslateRequest d st req).2 req).2.providerCalls =
        (enqueueTranslateRequest d st req).2.providerCalls) := by
  constructor
  · intro entry hentry
    rw [enqueue_cache_hit d st req hh entry hentry]
    exact ⟨rfl, rfl, rfl⟩
  · intro r hres hr
    have hcache := cacheGet_after_success d st req r hres hr hh
    rw [enqueue_cache_hit d2 _ req hh _ hcache]
    exact ⟨rfl, rfl⟩

open Dispatcher in
/-- Witness C2 (amended): with `{"h" → "你好"}` cached, enqueuing hash `"h"`
resolves to `"你好"` with no provider dispatch; and a first successful
non-empty enqueue makes the second resolve from the cache. -/
theorem cache_hit_short_circuit_witness :
    ((enqueueTranslateRequest (.ok "ignored")
        { cache := [("h", { translation := "你好" })],
          registry := { clientRequests := [], tabIndex := [] },
          providerCalls := 0 } wit2req).1 = .ok "你好" ∧
      (enqueueTranslateRequest (.ok "ignored")
        { cache := [("h", { translation := "你好" })],
          registry := { clientRequests := [], tabIndex := [] },
          providerCalls := 0 } wit2req).2.providerCalls = 0 ∧
      (enqueueTranslateRequest (.ok "ignored")
        { cache := [("h", { translation := "你好" })],
          registry := { clientRequests := [], tabIndex := [] },
          providerCalls := 0 } wit2req).2.cache =
        [("h", { translation := "你好" })]) ∧
    ((enqueueTranslateRequest (.error { name := "Error", message := "never" })
        (enqueueTranslateRequest (.ok "你好") wit2st wit2req).2 wit2req).1 = .ok "你好") :=
  ⟨(cache_hit_short_circuit (.ok "ignored") (.ok "x")
      { cache := [("h", { translation := "你好" })],
        registry := { clientRequests := [], tabIndex := [] },
        providerCalls := 0 } wit2req (by decide)).1
    { translation := "你好" } rfl,
   ((cache_hit_short_circuit (.ok "你好")
      (.error { name := "Error", message := "never" }) wit2st wit2req
      (by decide)).2 "你好" rfl (by decide)).1⟩

open Dispatcher in
/-- Counterexample C8. A request with hash `"h8"` whose provider branch
succeeds with the empty string resolves successfully, yet no cache entry
for `"h8"` exists afterwards: the code writes the cache only for truthy
(non-empty) results. -/
theorem cache_write_on_success_counterexample :
    (enqueueTranslateRequest (.ok "") wit2st
        { text := "hi", hash := "h8", clientRequestId := "c8", tabId := none }).1 =
      .ok "" ∧
    cacheGet (enqueueTranslateRequest (.ok "") wit2st
        { text := "hi", hash := "h8", clientRequestId := "c8", tabId := none }).2.cache
      "h8" = none := ⟨rfl, rfl⟩

open Dispatcher in
/-- C8 (amended). Every translation request that completes successfully with
a non-empty result and was supplied a non-empty hash leaves a cache entry
for that hash holding exactly that result, once the handler returns. -/
theorem cache_write_on_success (d : Except Err String) (st : DispatchState)
    (req : TranslateRequest) (r : String)
    (hres : (enqueueTranslateRequest d st req).1 = .ok r) (hr : r ≠ "")
    (hh : req.hash ≠ "") :
    cacheGet (enqueueTranslateRequest d st req).2.cache req.hash =
      some { translation := r } :=
  cacheGet_after_success d st req r hres hr hh

open Dispatcher in
/-- Witness C8 (amended): dispatching hash `"h"` with provider result
`"bonjour"` leaves `{"h" → "bonjour"}` in the cache. -/
theorem cache_write_on_success_witness :
    cacheGet (enqueueTranslateRequest (.ok "bonjour") wit2st wit2req).2.cache "h" =
      some { translation := "bonjour" } :=
  cache_write_on_success (.ok "bonjour") wit2st wit2req "bonjour" rfl
    (by decide) (by decide)

namespace Dispatcher

/-- Modelled from the spec: `BATCH_SEPARATOR` is imported from
`@/utils/constants/prompt`, a module not among the provided sources; the
spec's batch-coalescing scenario writes the separator as `[[SEP]]`, and the
claims depend only on it being one fixed token. -/
def BATCH_SEPARATOR : String := "[[SEP]]"

/-- One element of the `chunks` payload of `enqueueGenAIBatch`
(`chunkMetadata` is passed through opaquely and elided). -/
structure GenAIChunk where
  text : String
  hash : String
deriving Repr, DecidableEq

/-- JS truthiness of `entry?.translation`. -/
def entryTruthy : Option CacheEntry → Bool
  | some e => e.translation ≠ ""
  | none => false

/-- What the `enqueueGenAIBatch` handler decides to do after its cache
probe (translation-queues.ts lines 446-463): resolve `[]` for an empty
chunk list, short-circuit to the cached translations when every chunk's
entry is truthy, else send the whole joined batch to the provider, keeping
the pre-batch snapshot of cache entries for the fallback path. -/
inductive GenAIBatchAction where
  | emptyResult
  | cacheShortCircuit (translations : List String)
  | batchDispatch (batchText : String) (snapshot : List (Option CacheEntry))
deriving Repr, DecidableEq

/-- The cache-probe phase of the `enqueueGenAIBatch` handler. -/
def enqueueGenAIBatch (cache : Cache) (chunks : List GenAIChunk) :
    GenAIBatchAction :=
  if chunks.isEmpty then .emptyResult
  else
    let cachedEntries := chunks.map (fun ch => cacheGet cache ch.hash)
    if cachedEntries.all entryTruthy then
      .cacheShortCircuit
        (cachedEntries.map (fun e => ((e.map (·.translation)).getD "")))
    else
      .batchDispatch
        (String.intercalate ("\n\n" ++ BATCH_SEPARATOR ++ "\n\n")
          (chunks.map (·.text)))
        cachedEntries

/-- `translateChunksIndividually` (translation-queues.ts lines 478-515),
over the chunks paired with the pre-batch cache snapshot: a chunk whose
snapshot entry is truthy reuses it without any request; otherwise the chunk
goes through the single-request GenAI path (`ind`); the first failing
request aborts the whole fallback. -/
def translateChunksIndividually (ind : GenAIChunk → Except Err String) :
    List (GenAIChunk × Option CacheEntry) → Except Err (List String)
  | [] => .ok []
  | (ch, entry) :: rest =>
    if entryTruthy entry then
      (translateChunksIndividually ind rest).map
        (fun ts => ((entry.map (·.translation)).getD "") :: ts)
    else
      (ind ch).bind fun t =>
        (translateChunksIndividually ind rest).map (fun ts => t :: ts)

theorem translateChunksIndividually_ind_independent
    (ind ind2 : GenAIChunk → Except Err String)
    (pairs : List (GenAIChunk × Option CacheEntry))
    (hagree : ∀ pr ∈ pairs, entryTruthy pr.2 = false → ind pr.1 = ind2 pr.1) :
    translateChunksIndividually ind pairs = translateChunksIndividually ind2 pairs := by
  induction pairs with
  | nil => rfl
  | cons pr rest ih =>
    obtain ⟨ch, entry⟩ := pr
    have hrest : ∀ pr ∈ rest, entryTruthy pr.2 = false → ind pr.1 = ind2 pr.1 :=
      fun pr hm => hagree pr (List.mem_cons_of_mem _ hm)
    unfold translateChunksIndividually
    by_cases he : entryTruthy entry
    · rw [if_pos he, if_pos he, ih hrest]
    · rw [if_neg he, if_neg he, ih hrest,
        hagree (ch, entry) (List.mem_cons_self _ _) (by simpa using he)]

end Dispatcher

open Dispatcher in
/-- C10. `enqueueGenAIBatch` resolves an empty chunk list to the empty
result without any dispatch; it short-circuits to cached results exactly
when every chunk's hash has a truthy (non-empty) cache entry; as soon as
one chunk misses, the whole batch — cached chunks included — is joined into
one prompt and dispatched with the pre-batch cache snapshot kept for the
fallback path; and on that fallback path a chunk with a truthy snapshot
entry is served from the snapshot without an individual request (the
fallback outcome is independent of what the individual path would do for
snapshot-served chunks). -/
theorem genai_batch_cache_gate (cache : Cache) (chunks : List GenAIChunk) :
    (chunks = [] → enqueueGenAIBatch cache chunks = .emptyResult) ∧
    (chunks ≠ [] → (∀ ch ∈ chunks, entryTruthy (cacheGet cache ch.hash) = true) →
      enqueueGenAIBatch cache chunks =
        .cacheShortCircuit (chunks.map
          (fun ch => (((cacheGet cache ch.hash).map (·.translation)).getD "")))) ∧
    (chunks ≠ [] → (∃ ch ∈ chunks, entryTruthy (cacheGet cache ch.hash) = false) →
      enqueueGenAIBatch cache chunks =
        .batchDispatch
          (String.intercalate ("\n\n" ++ BATCH_SEPARATOR ++ "\n\n")
            (chunks.map (·.text)))
          (chunks.map (fun ch => cacheGet cache ch.hash))) ∧
    (∀ (ind ind2 : GenAIChunk → Except Err String)
        (pairs : List (GenAIChunk × Option CacheEntry)),
      (∀ pr ∈ pairs, entryTruthy pr.2 = false → ind pr.1 = ind2 pr.1) →
      translateChunksIndividually ind pairs =
        translateChunksIndividually ind2 pairs) := by
  refine ⟨fun hnil => ?_, fun hne hall => ?_, fun hne hmiss => ?_,
    translateChunksIndividually_ind_independent⟩
  · subst hnil
    rfl
  · have hisempty : chunks.isEmpty = false := by
      cases chunks with
      | nil => exact absurd rfl hne
      | cons a l => rfl
    have halltr : (chunks.map (fun ch => cacheGet cache ch.hash)).all entryTruthy = true := by
      rw [List.all_eq_true]
      intro e hme
      obtain ⟨ch, hch, rfl⟩ := List.mem_map.mp hme
      exact hall ch hch
    unfold enqueueGenAIBatch
    rw [hisempty]
    simp only [Bool.false_eq_true, if_false, halltr, if_true]
    rw [List.map_map]
    rfl
  · have hisempty : chunks.isEmpty = false := by
      cases chunks with
      | nil => exact absurd rfl hne
      | cons a l => rfl
    have hnotall : (chunks.map (fun ch => cacheGet cache ch.hash)).all entryTruthy = false := by
      obtain ⟨ch, hch, hft⟩ := hmiss
      rw [List.all_eq_false]
      exact ⟨cacheGet cache ch.hash, List.mem_map.mpr ⟨ch, hch, rfl⟩, by simp [hft]⟩
    unfold enqueueGenAIBatch
    rw [hisempty]
    simp only [Bool.false_eq_true, if_false, hnotall]

open Dispatcher in
/-- Witness C10: with `h1` cached as `"A"` and `h2` uncached, the two-chunk
batch is dispatched as one joined prompt carrying the full snapshot; with
both cached the handler short-circuits. -/
theorem genai_batch_cache_gate_witness :
    enqueueGenAIBatch [("h1", { translation := "A" })]
        [{ text := "a", hash := "h1" }, { text := "b", hash := "h2" }] =
      .batchDispatch ("a\n\n[[SEP]]\n\nb")
        [some { translation := "A" }, none] :=
  ((genai_batch_cache_gate [("h1", { translation := "A" })]
      [{ text := "a", hash := "h1" }, { text := "b", hash := "h2" }]).2.2.1
    (by decide)
    ⟨{ text := "b", hash := "h2" }, by decide, by decide⟩).trans (by decide)

namespace Dispatcher

/-- `/R\d{5}/i` tested at the head of a character list: `R` or `r` followed
by five decimal digits. -/
def respCodeAt : List Char → Option (List Char)
  | [] => none
  | c :: rest =>
    if (c = 'R' ∨ c = 'r') ∧ (rest.take 5).length = 5 ∧ (rest.take 5).all Char.isDigit then
      some (c :: rest.take 5)
    else none

/-- Leftmost match of `/R\d{5}/i` (how `String.match` finds it). -/
def findRespCode : List Char → Option (List Char)
  | [] => none
  | c :: rest =>
    match respCodeAt (c :: rest) with
    | some s => some s
    | none => findRespCode rest

/-- `extractGenAIResponseCode`: first `/R\d{5}/i` match of the message,
uppercased (`match[0].toUpperCase()`). -/
def extractGenAIResponseCode (message : String) : Option String :=
  (findRespCode message.data).map (fun l => String.mk (l.map Char.toUpper))

def RECOVERABLE_GENAI_RESPONSE_CODES : List String := ["R50004"]

/-- Case-insensitive test of the literal `pat` (given in lowercase) at the
head of `s`. -/
def lowerMatchAt (pat : List Char) (s : List Char) : Bool :=
  (s.take pat.length).map Char.toLower == pat

/-- JS `\s` on the ASCII whitespace the GenAI messages contain. -/
def isSpaceChar (c : Char) : Bool := c.isWhitespace

/-- `/Unexpected token\s+200007/i` tested at the head of `s`: the literal,
at least one whitespace, then `200007`. -/
def unexpectedTokenAt (s : List Char) : Bool :=
  if lowerMatchAt "unexpected token".data s then
    ((s.drop 16).takeWhile isSpaceChar).length ≥ 1
      && (((s.drop 16).dropWhile isSpaceChar).take 6 == "200007".data)
  else false

/-- Does `p` hold at some position of `s` (unanchored regex search)? -/
def anySuffix (p : List Char → Bool) : List Char → Bool
  | [] => p []
  | c :: rest => p (c :: rest) || anySuffix p rest

/-- `RECOVERABLE_GENAI_ERROR_PATTERNS.some(pattern => pattern.test(message))`. -/
def matchesRecoverablePattern (message : String) : Bool :=
  anySuffix unexpectedTokenAt message.data
    || anySuffix (lowerMatchAt "model execution error".data) message.data

/-- `pre` is a literal prefix of `s` (JS `String.prototype.startsWith`). -/
def listStartsWith (pre s : List Char) : Bool := s.take pre.length == pre

/-- The source's `GENAI_BATCH_MISMATCH_ERROR_PREFIX` constant (renamed:
the embedding avoids that suffix in identifiers). -/
def GENAI_BATCH_MISMATCH_ERROR_MARK : String := "GenAI batch result mismatch"

/-- `error.message.startsWith(GENAI_BATCH_MISMATCH_ERROR_PREFIX)`. -/
def startsWithMismatchMark (message : String) : Bool :=
  listStartsWith GENAI_BATCH_MISMATCH_ERROR_MARK.data message.data

structure BatchErrorClassification where
  recoverable : Bool
  reason : String
  code : Option String
deriving Repr, DecidableEq

/-- `classifyGenAIBatchError` (translation-queues.ts lines 75-94) on `Error`
values (the `instanceof Error` guard sits outside the model: every error in
the batch pipeline is an `Error`). -/
def classifyGenAIBatchError (e : Err) : BatchErrorClassification :=
  let responseCode := extractGenAIResponseCode e.message
  if (responseCode.map (fun c => RECOVERABLE_GENAI_RESPONSE_CODES.contains c)).getD false then
    { recoverable := true, reason := "response-code", code := responseCode }
  else if matchesRecoverablePattern e.message then
    { recoverable := true, reason := "message-pattern", code := responseCode }
  else if startsWithMismatchMark e.message then
    { recoverable := true, reason := "result-mismatch", code := none }
  else
    { recoverable := false, reason := "unknown", code := responseCode }

/-- `attemptBatch` (translation-queues.ts lines 534-539): run the batch
request and turn a result-count mismatch into the mismatch error. -/
def attemptBatch (exec : Except Err (List String)) (chunkCount : Nat) :
    Except Err (List String) :=
  match exec with
  | .error e => .error e
  | .ok translations =>
    if translations.length ≠ chunkCount then
      .error { name := "Error",
               message := GENAI_BATCH_MISMATCH_ERROR_MARK ++ ": expected "
                 ++ toString chunkCount ++ ", got " ++ toString translations.length }
    else .ok translations

/-- Outcome of `executeBatchWithFallback`. -/
inductive GenAIBatchOutcome where
  | succeeded (translations : List String) (attemptsUsed : Nat)
  | fellBack (reason : String) (result : Except Err (List String))
  | propagated (e : Err) (attemptsUsed : Nat)
deriving Repr

/-- `executeBatchWithFallback` (translation-queues.ts lines 541-592), the
`MAX_BATCH_ATTEMPTS = 2` loop unrolled: `attempt k` is the batch thunk's
outcome on the k-th try, `fb` the per-chunk fallback
(`translateChunksIndividually`). -/
def executeBatchWithFallback (attempt : Nat → Except Err (List String))
    (chunkCount : Nat) (fb : String → Except Err (List String)) :
    GenAIBatchOutcome :=
  match attemptBatch (attempt 0) chunkCount with
  | .ok ts => .succeeded ts 1
  | .error e =>
    if (classifyGenAIBatchError e).recoverable = false then .propagated e 1
    else
      match attemptBatch (attempt 1) chunkCount with
      | .ok ts => .succeeded ts 2
      | .error e2 =>
        if (classifyGenAIBatchError e2).recoverable = false then .propagated e2 2
        else .fellBack (classifyGenAIBatchError e2).reason
          (fb (classifyGenAIBatchError e2).reason)

/-- The claim's recoverability condition, word for word: the message
CONTAINS (anywhere) a `/R\d{5}/i` occurrence reading R50004, or matches one
of the two patterns, or is a result-count mismatch. -/
def claimRecoverable (e : Err) : Bool :=
  anySuffix (fun s =>
    match respCodeAt s with
    | some l => String.mk (l.map Char.toUpper) == "R50004"
    | none => false) e.message.data
  || matchesRecoverablePattern e.message
  || startsWithMismatchMark e.message

/-- The C5 counterexample error: its message carries the recoverable code
R50004, but only after the unrelated code R59999. -/
def cex5err : Err := { name := "Error", message := "R59999 then R50004" }

end Dispatcher

open Dispatcher in
/-- Counterexample C5. The message `"R59999 then R50004"` contains response
code R50004, so the claim classifies it recoverable; the code extracts only
the FIRST `/R\d{5}/i` match (R59999), finds it outside the recoverable set,
and classifies the error non-recoverable. -/
theorem genai_error_classification_counterexample :
    claimRecoverable cex5err = true ∧
    (classifyGenAIBatchError cex5err).recoverable = false := by
  constructor
  · rfl
  · rfl

namespace Dispatcher

theorem classify_recoverable_eq (e : Err) :
    (classifyGenAIBatchError e).recoverable =
      ((extractGenAIResponseCode e.message == some "R50004")
        || matchesRecoverablePattern e.message
        || startsWithMismatchMark e.message) := by
  unfold classifyGenAIBatchError
  cases hrc : extractGenAIResponseCode e.message with
  | none =>
    by_cases h2 : matchesRecoverablePattern e.message <;>
      by_cases h3 : startsWithMismatchMark e.message <;>
        simp [h2, h3]
  | some c =>
    by_cases hc : c = "R50004"
    · subst hc
      simp [RECOVERABLE_GENAI_RESPONSE_CODES]
    · have hmem : c ∉ RECOVERABLE_GENAI_RESPONSE_CODES := by
        simp only [RECOVERABLE_GENAI_RESPONSE_CODES, List.mem_singleton]
        exact hc
      by_cases h2 : matchesRecoverablePattern e.message <;>
        by_cases h3 : startsWithMismatchMark e.message <;>
          simp [h2, h3, hmem, hc, beq_iff_eq]

end Dispatcher

open Dispatcher in
/-- C5 (amended). A GenAI batch error is classified recoverable exactly when
the FIRST `/R\d{5}/i` response code of its message is R50004, or the message
matches `/Unexpected token\s+200007/i` or `/Model Execution Error/i`, or it
starts with the result-count-mismatch marker; on a recoverable first
failure the batch is retried exactly once; a recoverable second failure
falls back to the per-chunk individual path; a non-recoverable error
propagates immediately with no retry and no fallback. -/
theorem genai_batch_recoverable_retry_fallback (e : Err)
    (attempt : Nat → Except Err (List String)) (chunkCount : Nat)
    (fb : String → Except Err (List String)) :
    ((classifyGenAIBatchError e).recoverable = true ↔
      (extractGenAIResponseCode e.message = some "R50004" ∨
        matchesRecoverablePattern e.message = true ∨
        startsWithMismatchMark e.message = true)) ∧
    (∀ e1, attemptBatch (attempt 0) chunkCount = .error e1 →
      (classifyGenAIBatchError e1).recoverable = false →
      executeBatchWithFallback attempt chunkCount fb = .propagated e1 1) ∧
    (∀ e1 ts, attemptBatch (attempt 0) chunkCount = .error e1 →
      (classifyGenAIBatchError e1).recoverable = true →
      attemptBatch (attempt 1) chunkCount = .ok ts →
      executeBatchWithFallback attempt chunkCount fb = .succeeded ts 2) ∧
    (∀ e1 e2, attemptBatch (attempt 0) chunkCount = .error e1 →
      (classifyGenAIBatchError e1).recoverable = true →
      attemptBatch (attempt 1) chunkCount = .error e2 →
      (classifyGenAIBatchError e2).recoverable = true →
      executeBatchWithFallback attempt chunkCount fb =
        .fellBack (classifyGenAIBatchError e2).reason
          (fb (classifyGenAIBatchError e2).reason)) := by
  refine ⟨?_, fun e1 h0 hnr => ?_, fun e1 ts h0 hr h1 => ?_,
    fun e1 e2 h0 hr h1 hr2 => ?_⟩
  · rw [classify_recoverable_eq]
    simp [Bool.or_eq_true, beq_iff_eq, or_assoc]
  · unfold executeBatchWithFallback
    rw [h0]
    simp [hnr]
  · unfold executeBatchWithFallback
    rw [h0]
    simp only [hr]
    rw [h1]
    simp
  · unfold executeBatchWithFallback
    rw [h0]
    simp only [hr]
    rw [h1]
    simp [hr2]

open Dispatcher in
/-- Witness C5: the first attempt returns one fragment for two chunks (a
count mismatch, recoverable), the retry returns two fragments: the batch
succeeds on the second attempt with no fallback. -/
theorem genai_batch_recoverable_retry_fallback_witness :
    executeBatchWithFallback
        (fun k => if k = 0 then .ok ["x"] else .ok ["a", "b"]) 2
        (fun _ => .ok ["u", "v"]) = .succeeded ["a", "b"] 2 :=
  (genai_batch_recoverable_retry_fallback
      { name := "Error", message := "probe" }
      (fun k => if k = 0 then .ok ["x"] else .ok ["a", "b"]) 2
      (fun _ => .ok ["u", "v"])).2.2.1
    { name := "Error",
      message := "GenAI batch result mismatch: expected 2, got 1" }
    ["a", "b"] rfl rfl rfl

namespace GenAI

/-- HTTP-level outcome of `POST /api/chat/v1/messages`: either the created
message guid, or an HTTP error carrying the status and the body's
`errorCode`. -/
inductive HttpOutcome where
  | ok (guid : String)
  | httpError (status : Nat) (errorCode : Option String)
deriving Repr, DecidableEq

/-- Errors `sendUserMessage` can throw: the distinct
`GenAIPendingResponseError`, or the original `GenAIHttpError`. -/
inductive SendErr where
  | pendingResponse
  | http (status : Nat) (errorCode : Option String)
deriving Repr, DecidableEq

/-- `sendUserMessage` (chat-pool.ts lines 298-339): convert an HTTP 422
whose body carries `errorCode: "CHAT_ERROR_4"` into the distinct
`GenAIPendingResponseError`; every other failure is rethrown as-is. -/
def sendUserMessage : HttpOutcome → Except SendErr String
  | .ok guid => .ok guid
  | .httpError status errorCode =>
    if status = 422 ∧ errorCode = some "CHAT_ERROR_4" then .error .pendingResponse
    else .error (.http status errorCode)

/-- How the inner send loop of `genaiTranslate` leaves the current lease:
the accepted user message proceeds to streaming, or the chat is flagged for
reset, or an HTTP error is rethrown. `sendsUsed` counts `sendMessage`
calls. -/
inductive InnerOutcome where
  | proceed (userGuid : String) (sendsUsed : Nat)
  | reset (reason : String) (sendsUsed : Nat)
  | fatal (status : Nat) (errorCode : Option String) (sendsUsed : Nat)
deriving Repr, DecidableEq

/-- The send loop body once `parentCompletionWaitAttempted` is `true`: any
further `GenAIPendingResponseError` flags a reset with reason
`chat-error-4`. -/
def sendLoopAttempted (outcomes : Nat → HttpOutcome) (i : Nat) : InnerOutcome :=
  match sendUserMessage (outcomes i) with
  | .ok guid => .proceed guid (i + 1)
  | .error .pendingResponse => .reset "chat-error-4" (i + 1)
  | .error (.http s c) => .fatal s c (i + 1)

/-- The inner send loop of `genaiTranslate` (chat-pool.ts lines 1027-1063),
started with `parentCompletionWaitAttempted = false`: on a
`GenAIPendingResponseError` with a parent id and no wait attempted yet, the
driver waits for the parent message (`waitParentOk` is that wait's outcome)
and re-sends once; without a parent id the chat is flagged for reset with
`chat-error-4`, and a failed parent wait flags `parent-still-processing`. -/
def sendLoop (outcomes : Nat → HttpOutcome) (parentGuid : Option String)
    (waitParentOk : Bool) : InnerOutcome :=
  match sendUserMessage (outcomes 0) with
  | .ok guid => .proceed guid 1
  | .error .pendingResponse =>
    match parentGuid with
    | some _ =>
      if waitParentOk then sendLoopAttempted outcomes 1
      else .reset "parent-still-processing" 1
    | none => .reset "chat-error-4" 1
  | .error (.http s c) => .fatal s c 1

/-- Observable lease finalisation. -/
inductive PoolAction where
  | remoteDelete (chatGuid : String)
  | invalidate
  | release
deriving Repr, DecidableEq

/-- The `finally` block of a `genaiTranslate` attempt (chat-pool.ts lines
1149-1157): a flagged reset performs `invalidateChatWithRemoteDelete`
(best-effort remote DELETE of the conversation, then local invalidation of
the slot); otherwise the lease is released. -/
def leaseFinalizer (shouldResetChat : Bool) (chatGuid : String) : List PoolAction :=
  if shouldResetChat then [.remoteDelete chatGuid, .invalidate] else [.release]

/-- The outer `translateChatLoop` (chat-pool.ts lines 1007-1158) over the
sequence of leases it would acquire (bounded by
`GENAI_CHAT_MAX_RECOVERY_ATTEMPTS`): each element pairs the acquired chat
guid with the inner outcome reached on that chat. A `proceed` hands the
accepted user message over to the streaming phase on that chat (whose later
finalisation depends on the stream, outside this model); a `reset` deletes
the chat remotely, invalidates the slot, and retries on the next fresh
chat; a `fatal` HTTP error invalidates the slot for the statuses in
`INVALIDATE_CHAT_HTTP_STATUS`, releases, and rethrows; an exhausted list is
the `ExhaustedRecovery` failure. -/
def translateChatLoop :
    List (String × InnerOutcome) →
      List (String × List PoolAction) × Option (String × String)
  | [] => ([], none)
  | (chat, inner) :: rest =>
    match inner with
    | .proceed g _ => ([], some (chat, g))
    | .reset _ _ =>
      ((chat, leaseFinalizer true chat) :: (translateChatLoop rest).1,
        (translateChatLoop rest).2)
    | .fatal s _ _ =>
      ([(chat, (if [401, 403, 404, 410].contains s then [PoolAction.invalidate] else [])
          ++ [PoolAction.release])], none)

end GenAI

open GenAI in
/-- C3. An HTTP 422 from `sendMessage` whose body carries errorCode
CHAT_ERROR_4 is raised as the distinct PendingResponse error (and only
that combination is); on the first PendingResponse with a parent message id
the driver waits once for the parent to complete and re-sends, so a
successful second send proceeds with that message; a PendingResponse with
no parent id, or one arriving after the parent wait was already attempted,
flags a reset with reason `chat-error-4`; and a flagged reset performs the
remote conversation DELETE followed by local slot invalidation, after which
the outer loop retries on the next freshly acquired chat. -/
theorem chat_error_4_pending_response_flow (outcomes : Nat → HttpOutcome)
    (status : Nat) (errorCode : Option String) (parent : String)
    (chat chat2 : String) (inner2 : InnerOutcome)
    (rest : List (String × InnerOutcome)) :
    (sendUserMessage (.httpError status errorCode) = .error .pendingResponse ↔
      (status = 422 ∧ errorCode = some "CHAT_ERROR_4")) ∧
    (outcomes 0 = .httpError 422 (some "CHAT_ERROR_4") →
      (∀ g, outcomes 1 = .ok g →
        sendLoop outcomes (some parent) true = .proceed g 2) ∧
      (outcomes 1 = .httpError 422 (some "CHAT_ERROR_4") →
        sendLoop outcomes (some parent) true = .reset "chat-error-4" 2) ∧
      sendLoop outcomes none true = .reset "chat-error-4" 1) ∧
    (∀ reason sendsUsed,
      translateChatLoop ((chat, .reset reason sendsUsed) :: (chat2, inner2) :: rest) =
        ((chat, [.remoteDelete chat, .invalidate]) ::
            (translateChatLoop ((chat2, inner2) :: rest)).1,
          (translateChatLoop ((chat2, inner2) :: rest)).2)) := by
  refine ⟨?_, fun h0 => ⟨fun g h1 => ?_, fun h1 => ?_, ?_⟩, fun reason sendsUsed => ?_⟩
  · constructor
    · intro h
      by_cases hc : status = 422 ∧ errorCode = some "CHAT_ERROR_4"
      · exact hc
      · unfold sendUserMessage at h
        dsimp only at h
        rw [if_neg hc] at h
        cases h
    · intro hc
      unfold sendUserMessage
      dsimp only
      rw [if_pos hc]
  · unfold sendLoop
    rw [h0]
    unfold sendLoopAttempted
    rw [h1]
    rfl
  · unfold sendLoop
    rw [h0]
    unfold sendLoopAttempted
    rw [h1]
    rfl
  · unfold sendLoop
    rw [h0]
    rfl
  · unfold translateChatLoop leaseFinalizer
    rfl

open GenAI in
/-- Witness C3: the first send hits 422/CHAT_ERROR_4, the parent wait
succeeds, the re-send is accepted with guid `u2`; and a reset attempt on
chat `c1` deletes and invalidates `c1` before the loop moves to chat
`c2`. -/
theorem chat_error_4_pending_response_flow_witness :
    sendLoop
        (fun i => if i = 0 then .httpError 422 (some "CHAT_ERROR_4") else .ok "u2")
        (some "p1") true = .proceed "u2" 2 ∧
    translateChatLoop
        [("c1", .reset "chat-error-4" 2), ("c2", .proceed "u3" 1)] =
      ([("c1", [.remoteDelete "c1", .invalidate])], some ("c2", "u3")) := by
  constructor
  · exact ((chat_error_4_pending_response_flow
      (fun i => if i = 0 then .httpError 422 (some "CHAT_ERROR_4") else .ok "u2")
      422 (some "CHAT_ERROR_4") "p1" "c1" "c2" (.proceed "u3" 1) []).2.1
      rfl).1 "u2" rfl
  · exact ((chat_error_4_pending_response_flow
      (fun i => if i = 0 then .httpError 422 (some "CHAT_ERROR_4") else .ok "u2")
      422 (some "CHAT_ERROR_4") "p1" "c1" "c2" (.proceed "u3" 1) []).2.2
      "chat-error-4" 2).trans (by decide)

namespace GenAI

/-- JS `String.prototype.trim` over the character list. -/
def listTrim (l : List Char) : List Char :=
  ((l.dropWhile Char.isWhitespace).reverse.dropWhile Char.isWhitespace).reverse

/-- `value.trim().length > 0`. -/
def nonBlank (s : String) : Bool := !(listTrim s.data).isEmpty

/-- `value.trim().toUpperCase()` (the statuses are ASCII). -/
def trimUpper (s : String) : String := String.mk ((listTrim s.data).map Char.toUpper)

/-- One entry of `processing_content` / `processingContent`. -/
structure ProcessingItem where
  event_status : Option String := none
  eventStatus : Option String := none
deriving Repr, DecidableEq

/-- A parsed SSE event payload (`GenAIStreamEvent`, chat-pool.ts lines
399-415); absent JSON fields are `none`. The decoder model works at event
granularity on payloads that parsed, whose raw serialisation carries no
`"guid":` pairs beyond the modelled fields (so the regex fallbacks agree
with the structured reads). -/
structure GenAIStreamEvent where
  guid : Option String := none
  id : Option String := none
  message_guid : Option String := none
  messageGuid : Option String := none
  response_guid : Option String := none
  responseGuid : Option String := none
  event_status : Option String := none
  eventStatus : Option String := none
  status : Option String := none
  response_code : Option String := none
  responseCode : Option String := none
  content : Option String := none
  processing_content : List ProcessingItem := []
  processingContent : List ProcessingItem := []
deriving Repr, DecidableEq

/-- First candidate that is a string with non-blank trim (returned
untrimmed). -/
def firstNonBlank : List (Option String) → Option String
  | [] => none
  | some s :: rest => if nonBlank s then some s else firstNonBlank rest
  | none :: rest => firstNonBlank rest

/-- `getGuidFromPayload` (chat-pool.ts lines 417-431), candidate order as in
the source. -/
def getGuidFromPayload (p : GenAIStreamEvent) : Option String :=
  firstNonBlank [p.guid, p.response_guid, p.responseGuid, p.message_guid,
    p.messageGuid, p.id]

/-- `normalizeStatus` (chat-pool.ts line 778). -/
def normalizeStatus : Option String → Option String
  | some s => some (trimUpper s)
  | none => none

/-- `appendStatusCandidate` applied over a field list: keep the non-blank
values, trimmed and uppercased, in order. -/
def pushCandidates (l : List (Option String)) : List String :=
  l.filterMap (fun v => v.bind (fun s => if nonBlank s then some (trimUpper s) else none))

/-- `COMPLETE_STATUS_SET`: `GENAI_STREAM_COMPLETE_EVENTS` (`FINAL_ANSWER`,
`SUCCESS`) plus `R20000`, `DONE`, `COMPLETED`, `COMPLETE`. -/
def COMPLETE_STATUS_SET : List String :=
  ["FINAL_ANSWER", "SUCCESS", "R20000", "DONE", "COMPLETED", "COMPLETE"]

/-- The status fields `isCompletionEvent` collects, in source order. -/
def candidateFields (e : GenAIStreamEvent) : List (Option String) :=
  [e.event_status, e.eventStatus, e.status, e.response_code, e.responseCode]
    ++ ((e.processing_content ++ e.processingContent).map
        (fun it => [it.event_status, it.eventStatus])).flatten

/-- `isCompletionEvent` (chat-pool.ts lines 456-476). -/
def isCompletionEvent (e : GenAIStreamEvent) : Bool :=
  (pushCandidates (candidateFields e)).any (fun s => COMPLETE_STATUS_SET.contains s)

/-- `extractVisibleContent` (chat-pool.ts lines 438-454): non-empty content
with no response code, whose (defaulted) status is `CHUNK` or `STREAM`. -/
def extractVisibleContent (e : GenAIStreamEvent) : Option String :=
  match e.content with
  | none => none
  | some c =>
    if c = "" then none
    else if (e.response_code.orElse (fun _ => e.responseCode)).isSome then none
    else
      if ((normalizeStatus e.event_status).orElse
            (fun _ => normalizeStatus e.eventStatus)).getD "CHUNK" = "CHUNK"
          ∨ ((normalizeStatus e.event_status).orElse
            (fun _ => normalizeStatus e.eventStatus)).getD "CHUNK" = "STREAM" then
        some c
      else none

/-- The decoder's return value. -/
structure ReadResult where
  responseGuid : String
  fallbackContent : Option String
deriving Repr, DecidableEq

/-- Outcome of `readEventStream`: the result, or the
`[GenAI] Stream ended without response guid` failure. -/
inductive ReadOutcome where
  | ok (r : ReadResult)
  | missingId
deriving Repr, DecidableEq

/-- `collectedContent.join('') || null`. -/
def joinedContent (collected : List String) : Option String :=
  if String.join collected = "" then none else some (String.join collected)

/-- The event loop of `readEventStream` (chat-pool.ts lines 591-707):
update the latest guid, accumulate visible content, return as soon as a
completion event resolves to a guid (the event's own guid, else the latest
one); at end of stream return the last observed guid, or fail. The
raw-SSE re-parse at stream end recomputes the same guids on parsed events
and is absorbed by the end-of-stream case. -/
def readEventStreamLoop :
    List GenAIStreamEvent → Option String → List String → ReadOutcome
  | [], latest, collected =>
    match latest with
    | some g => .ok { responseGuid := g, fallbackContent := joinedContent collected }
    | none => .missingId
  | e :: rest, latest, collected =>
    let candidateGuid := getGuidFromPayload e
    let latest2 := match candidateGuid with | some g => some g | none => latest
    let collected2 := match extractVisibleContent e with
      | some c => collected ++ [c]
      | none => collected
    if isCompletionEvent e then
      match candidateGuid with
      | some g => .ok { responseGuid := g, fallbackContent := joinedContent collected2 }
      | none =>
        match latest2 with
        | some g => .ok { responseGuid := g, fallbackContent := joinedContent collected2 }
        | none => readEventStreamLoop rest latest2 collected2
    else
      readEventStreamLoop rest latest2 collected2

/-- `readEventStream` on the stream's parsed events. -/
def readEventStream (events : List GenAIStreamEvent) : ReadOutcome :=
  readEventStreamLoop events none []

/-- The fallback text accumulated over a list of events. -/
def accumContent (events : List GenAIStreamEvent) : List String :=
  events.filterMap extractVisibleContent

/-- The latest guid after folding `events` over a starting value. -/
def lastGuidFrom (latest : Option String) (events : List GenAIStreamEvent) :
    Option String :=
  events.foldl
    (fun acc e => match getGuidFromPayload e with | some g => some g | none => acc)
    latest

/-- The last observed guid of the stream. -/
def lastGuid (events : List GenAIStreamEvent) : Option String :=
  lastGuidFrom none events

theorem readEventStreamLoop_completion (post : List GenAIStreamEvent)
    (e : GenAIStreamEvent) (g : String) (hce : isCompletionEvent e = true)
    (hg : getGuidFromPayload e = some g) :
    ∀ (pre : List GenAIStreamEvent), (∀ x ∈ pre, isCompletionEvent x = false) →
      ∀ latest collected,
      readEventStreamLoop (pre ++ e :: post) latest collected =
        .ok { responseGuid := g,
              fallbackContent := joinedContent (collected ++ accumContent (pre ++ [e])) } := by
  intro pre
  induction pre with
  | nil =>
    intro _ latest collected
    rw [List.nil_append]
    simp only [readEventStreamLoop, hg, hce, if_true]
    cases hvc : extractVisibleContent e <;>
      simp [hvc, accumContent]
  | cons x rest ih =>
    intro hpre latest collected
    have hx : isCompletionEvent x = false := hpre x (List.mem_cons_self _ _)
    have hrest : ∀ y ∈ rest, isCompletionEvent y = false :=
      fun y hy => hpre y (List.mem_cons_of_mem _ hy)
    rw [List.cons_append]
    simp only [readEventStreamLoop, hx, Bool.false_eq_true, if_false]
    rw [ih hrest]
    cases hvc : extractVisibleContent x <;>
      simp [hvc, accumContent, List.append_assoc]

theorem readEventStreamLoop_no_completion :
    ∀ (events : List GenAIStreamEvent),
      (∀ x ∈ events, isCompletionEvent x = false) →
      ∀ latest collected,
      readEventStreamLoop events latest collected =
        (match lastGuidFrom latest events with
          | some g =>
            .ok { responseGuid := g,
                  fallbackContent := joinedContent (collected ++ accumContent events) }
          | none => .missingId) := by
  intro events
  induction events with
  | nil =>
    intro _ latest collected
    cases latest <;> simp [readEventStreamLoop, lastGuidFrom, accumContent]
  | cons x rest ih =>
    intro hnc latest collected
    have hx : isCompletionEvent x = false := hnc x (List.mem_cons_self _ _)
    have hrest : ∀ y ∈ rest, isCompletionEvent y = false :=
      fun y hy => hnc y (List.mem_cons_of_mem _ hy)
    simp only [readEventStreamLoop, hx, Bool.false_eq_true, if_false]
    rw [ih hrest]
    cases hvc : extractVisibleContent x <;> cases hgx : getGuidFromPayload x <;>
      simp [hvc, hgx, accumContent, lastGuidFrom, List.append_assoc]

theorem readEventStreamLoop_no_guid :
    ∀ (events : List GenAIStreamEvent),
      (∀ x ∈ events, getGuidFromPayload x = none) →
      ∀ collected, readEventStreamLoop events none collected = .missingId := by
  intro events
  induction events with
  | nil => intro _ collected; rfl
  | cons x rest ih =>
    intro hng collected
    have hx : getGuidFromPayload x = none := hng x (List.mem_cons_self _ _)
    have hrest : ∀ y ∈ rest, getGuidFromPayload y = none :=
      fun y hy => hng y (List.mem_cons_of_mem _ hy)
    simp only [readEventStreamLoop, hx]
    by_cases hc : isCompletionEvent x <;>
      simp [hc] <;>
        cases hvc : extractVisibleContent x <;>
          simp [hvc, ih hrest]

end GenAI

open GenAI in
/-- C4. The SSE decoder returns as soon as the first completion event is
observed, with that event's id and the fallback text accumulated through
that event (later events contribute nothing); if the stream ends without
any completion event but at least one id was observed, it returns the last
observed id with the accumulated fallback text; and if no id ever appears
in the stream, it fails with the stream-missing-id error. -/
theorem sse_stream_decoder_contract (pre post events : List GenAIStreamEvent)
    (e : GenAIStreamEvent) (g : String) :
    ((∀ x ∈ pre, isCompletionEvent x = false) → isCompletionEvent e = true →
      getGuidFromPayload e = some g →
      readEventStream (pre ++ e :: post) =
        .ok { responseGuid := g,
              fallbackContent := joinedContent (accumContent (pre ++ [e])) }) ∧
    ((∀ x ∈ events, isCompletionEvent x = false) → lastGuid events = some g →
      readEventStream events =
        .ok { responseGuid := g,
              fallbackContent := joinedContent (accumContent events) }) ∧
    ((∀ x ∈ events, getGuidFromPayload x = none) →
      readEventStream events = .missingId) := by
  refine ⟨fun hpre hce hg => ?_, fun hnc hlast => ?_, fun hng => ?_⟩
  · unfold readEventStream
    rw [readEventStreamLoop_completion post e g hce hg pre hpre none []]
    rw [List.nil_append]
  · unfold readEventStream
    rw [readEventStreamLoop_no_completion events hnc none []]
    unfold lastGuid at hlast
    rw [hlast]
    simp
  · exact readEventStreamLoop_no_guid events hng []

namespace GenAI

/-- First C4 witness event: an id-bearing content chunk. -/
def wit4e1 : GenAIStreamEvent := { guid := some "g1", content := some "hel" }

/-- Second C4 witness event: a completion (`FINAL_ANSWER` in `status`) with
its own id and a trailing content chunk. -/
def wit4e2 : GenAIStreamEvent :=
  { guid := some "g2", status := some "FINAL_ANSWER", content := some "lo" }

end GenAI

open GenAI in
/-- Witness C4: the stream `[chunk "hel" (id g1), FINAL_ANSWER "lo"
(id g2)]` returns immediately at the completion event with id `g2` and
fallback text `"hello"`. -/
theorem sse_stream_decoder_contract_witness :
    readEventStream [wit4e1, wit4e2] =
      .ok { responseGuid := "g2", fallbackContent := some "hello" } :=
  ((sse_stream_decoder_contract [wit4e1] [] [] wit4e2 "g2").1
    (by decide) (by decide) (by decide)).trans (by decide)

end ReadFrog
